import Mathlib

/-!
Verification development for the Mesh Maker editor core
(`src/projects/Mesh Maker`): a shallow embedding in Lean 4 of the
document model, the reducer (`appReducer` in `reducer.ts`), the
serialization engine (`validateImportData` / `parseImportData` in
`utils.ts`, the pure core of `exportToJSON` in
`hooks/useImportExport.ts`) and the bezier construction branch of
`handleMouseDown` in `hooks/useCanvasInteraction.ts`.

JavaScript numbers are modelled as rationals (`ℚ`); JS `Map` objects
are modelled as insertion-ordered association lists over `String`
keys (`AList`), and `Set<string>` as `List String` (the operations
used by the code — construction from a list, filtering, membership —
are order-respecting on lists exactly as on JS sets).  Optional
fields that the code consistently treats through falsiness checks
(`style.fill`, where `""` and `undefined` behave identically at every
use site) are collapsed to their falsy representative.
-/

set_option maxHeartbeats 1000000
set_option maxRecDepth 10000

namespace MeshMaker

/-- Insertion-ordered association list, the model of a JS `Map` with
string keys.  JS maps never hold a key twice; all states built by the
code keep keys pairwise distinct, and on such lists the operations
below agree with the JS `Map` methods. -/
abbrev AList (α : Type) : Type := List (String × α)

namespace AList

/-- Model of `Map.prototype.get` (first matching key). -/
def aget (m : AList α) (k : String) : Option α :=
  match m with
  | [] => none
  | (k', v) :: rest => if k' = k then some v else aget rest k

/-- Model of `Map.prototype.set`: update in place when the key is
present (keeping its position), append otherwise. -/
def aset (m : AList α) (k : String) (v : α) : AList α :=
  match m with
  | [] => [(k, v)]
  | (k', v') :: rest =>
      if k' = k then (k', v) :: rest else (k', v') :: aset rest k v

/-- Model of `Map.prototype.delete` (on duplicate-free lists). -/
def adel (m : AList α) (k : String) : AList α :=
  m.filter (fun e => e.1 ≠ k)

/-- Model of `Map.prototype.has`. -/
def ahas (m : AList α) (k : String) : Bool :=
  (aget m k).isSome

/-- Key list, in insertion order. -/
def akeys (m : AList α) : List String :=
  m.map (·.1)

end AList

open AList

/-- Vertex kind: `"anchor" | "control"` in `types.ts`. -/
inductive VertexType where
  | anchor
  | control
deriving Repr, DecidableEq

/-- The `Vertex` interface of `types.ts`. -/
structure Vertex where
  id : String
  x : ℚ
  y : ℚ
  type : VertexType
  parentId : Option String := none
deriving Repr, DecidableEq

/-- Shape style from `BaseShape` in `types.ts`.  `fill?: string` is
modelled with `""` as the absent value (the code only ever tests it
for falsiness) and `opacity?: number` with its pervasive default `1`. -/
structure Style where
  color : String
  strokeWidth : ℚ
  fill : String := ""
  opacity : ℚ := 1
deriving Repr, DecidableEq

/-- Shape tag: `"line" | "rect" | "circle" | "bezier" | "polygon"`. -/
inductive ShapeType where
  | line
  | rect
  | circle
  | bezier
  | polygon
deriving Repr, DecidableEq

/-- One cubic span of a bezier shape (`BezierSegment` in `types.ts`):
four vertex references. -/
structure BezierSegment where
  p0 : String
  p1 : String
  p2 : String
  p3 : String
deriving Repr, DecidableEq

/-- The `Shape` union of `types.ts`, flattened: `radius` is meaningful
only when `type = circle`, `segments` only when `type = bezier`,
`closed` only for `bezier`/`polygon`; the defaults are the values the
per-variant JS objects behave as at every read site. -/
structure Shape where
  id : String
  type : ShapeType
  vertexIds : List String
  style : Style
  visible : Bool
  locked : Bool
  radius : ℚ := 0
  segments : List BezierSegment := []
  closed : Bool := false
deriving Repr, DecidableEq

/-- The `ShapeGroup` interface of `types.ts`. -/
structure ShapeGroup where
  id : String
  name : String
  shapeIds : List String
  locked : Bool
deriving Repr, DecidableEq

/-- A recorded animation frame (`Frame` in `types.ts`). -/
structure Frame where
  id : String
  name : String
  vertices : AList (ℚ × ℚ)
  shapeProperties : AList (Option ℚ)
  timestamp : ℤ
deriving Repr, DecidableEq

/-- One undo/redo snapshot: the `{vertices, shapes}` pairs stored in
`AppState.history`. -/
structure Snapshot where
  vertices : AList Vertex
  shapes : AList Shape
deriving Repr, DecidableEq

/-- The `history` field of `AppState`. -/
structure History where
  past : List Snapshot
  future : List Snapshot
deriving Repr, DecidableEq

/-- The `AppState` interface of `types.ts`. -/
structure AppState where
  vertices : AList Vertex
  shapes : AList Shape
  groups : AList ShapeGroup
  frames : List Frame
  currentFrameIndex : ℤ
  isRecording : Bool
  selectedVertexIds : List String
  selectedShapeIds : List String
  hoveredVertexId : Option String
  hoveredShapeId : Option String
  history : History
deriving Repr, DecidableEq

/-- Linear interpolation, `lerp` in `utils.ts`. -/
def lerp (a b t : ℚ) : ℚ := a + (b - a) * t

/-- JS `Math.round` on a rational: round half toward positive
infinity, `Math.round x = ⌊x + 1/2⌋`. -/
def jsRound (q : ℚ) : ℤ := ⌊q + 1 / 2⌋

/-- The `Math.round(v * 100) / 100` idiom used throughout the
serialization engine: round to two decimal places. -/
def round2 (q : ℚ) : ℚ := (jsRound (q * 100) : ℚ) / 100

/-- Model of a JS array index access `l[i]` with a possibly negative
number index: `undefined` (`none`) when out of range. -/
def getAt? (l : List α) (i : ℤ) : Option α :=
  if 0 ≤ i then l.get? i.toNat else none

/-- Model of `Array.prototype.slice(-n)`: the last `n` elements. -/
def takeLast (n : ℕ) (l : List α) : List α :=
  l.drop (l.length - n)

/-- The `AppAction` union of `types.ts`.  Partial-update payloads
(`Partial<Vertex>`, `Partial<Shape>`, `Partial<Frame>`), which the
reducer only ever applies by object spread, are modelled as update
functions. -/
inductive Action where
  | addVertex (vertex : Vertex)
  | updateVertex (id : String) (updates : Vertex → Vertex)
  | deleteVertex (id : String)
  | addShape (shape : Shape)
  | updateShape (id : String) (updates : Shape → Shape)
  | deleteShape (id : String)
  | selectVertices (ids : List String) (additive : Bool)
  | selectShapes (ids : List String) (additive : Bool)
  | hoverVertex (id : Option String)
  | hoverShape (id : Option String)
  | createGroup (name : String) (shapeIds : List String)
  | deleteGroup (id : String)
  | mergeVertices (vertexIds : List String) (targetPosition : ℚ × ℚ)
  | importData (vertices : AList Vertex) (shapes : AList Shape)
      (groups : AList ShapeGroup) (frames : Option (List Frame))
  | addFrame (frame : Frame)
  | updateFrame (frameIndex : ℤ) (updates : Frame → Frame)
  | deleteFrame (frameIndex : ℤ)
  | setCurrentFrame (frameIndex : ℤ)
  | startRecording
  | stopRecording
  | recordFrame (name : String)
  | applyFrame (frameIndex : ℤ)
  | interpolateFrames (fromIndex : ℤ) (toIndex : ℤ) (t : ℚ)
  | undo
  | redo
  | clearAll
  | updateCurrentFrameData
  | batchUpdate (vertexUpdates : List (String × (Vertex → Vertex)))
      (shapeUpdates : List (String × (Shape → Shape)))

/-- Model of `new Set(list)` for a JS string set represented as a
duplicate-free list: keep the first occurrence of each element. -/
def toSet (l : List String) : List String :=
  l.foldl (fun s i => if s.contains i then s else s ++ [i]) []

/-- Model of adding each element of `ids` to an existing JS set
(`ids.forEach(id => s.add(id))`). -/
def setAddAll (s ids : List String) : List String :=
  ids.foldl (fun s i => if s.contains i then s else s ++ [i]) s

/-- The `saveHistory` closure of `appReducer` in `reducer.ts`: push a
snapshot of the pre-action `{vertices, shapes}`, keep the last 50
entries (`slice(-50)`), clear the redo stack. -/
def saveHistory (state : AppState) : History :=
  { past := takeLast 50 (state.history.past ++ [⟨state.vertices, state.shapes⟩]),
    future := [] }

/-- The fresh state produced by the `CLEAR_ALL` case of `appReducer`. -/
def emptyState : AppState :=
  { vertices := [], shapes := [], groups := [], frames := [],
    currentFrameIndex := 0, isRecording := false,
    selectedVertexIds := [], selectedShapeIds := [],
    hoveredVertexId := none, hoveredShapeId := none,
    history := ⟨[], []⟩ }

/-- Capture of all current vertex positions, as built by the
`RECORD_FRAME` and `UPDATE_CURRENT_FRAME_DATA` cases. -/
def captureVertexPositions (state : AppState) : AList (ℚ × ℚ) :=
  state.vertices.foldl (fun m e => aset m e.1 (e.2.x, e.2.y)) []

/-- Capture of all current circle radii, as built by the
`RECORD_FRAME` and `UPDATE_CURRENT_FRAME_DATA` cases. -/
def captureShapeProperties (state : AppState) : AList (Option ℚ) :=
  state.shapes.foldl
    (fun m e => if e.2.type = .circle then aset m e.1 (some e.2.radius) else m) []

/-- The per-shape body of the `newShapes.forEach` loop in the
`MERGE_VERTICES` case of `appReducer` (the loop writes each rewritten
shape back under its unchanged key): substitute the merged vertex ids
by the new id in segments and vertex references. -/
def mergeRewriteShape (vertexIds : List String) (newId : String)
    (shape : Shape) : Shape :=
  if shape.type = .bezier then
    let newSegments := shape.segments.map (fun seg =>
      { p0 := if vertexIds.contains seg.p0 then newId else seg.p0,
        p1 := if vertexIds.contains seg.p1 then newId else seg.p1,
        p2 := if vertexIds.contains seg.p2 then newId else seg.p2,
        p3 := if vertexIds.contains seg.p3 then newId else seg.p3 })
    let updated := shape.segments.any (fun seg =>
      vertexIds.contains seg.p0 || vertexIds.contains seg.p1 ||
      vertexIds.contains seg.p2 || vertexIds.contains seg.p3)
    if updated then
      { shape with
          segments := newSegments,
          vertexIds := newSegments.flatMap (fun s => [s.p0, s.p1, s.p2, s.p3]) }
    else shape
  else
    let newVertexIds := shape.vertexIds.map (fun vId =>
      if vertexIds.contains vId then newId else vId)
    if newVertexIds ≠ shape.vertexIds then
      { shape with vertexIds := newVertexIds }
    else shape

/-- The `appReducer` of `reducer.ts`.  `freshId` stands for the value
`generateId()` returns during this dispatch (timestamp + randomness)
and `now` for `Date.now()`; both are threaded as parameters. -/
def appReducer (freshId : String) (now : ℤ) (state : AppState)
    (action : Action) : AppState :=
  match action with
  | .addVertex vertex =>
      { state with vertices := aset state.vertices vertex.id vertex,
                   history := saveHistory state }
  | .updateVertex id updates =>
      match aget state.vertices id with
      | none => state
      | some vertex =>
          { state with vertices := aset state.vertices id (updates vertex) }
  | .deleteVertex id =>
      let newVertices := adel state.vertices id
      let shapesToDelete :=
        (state.shapes.filter (fun e => e.2.vertexIds.contains id)).map (·.1)
      let newShapes := shapesToDelete.foldl adel state.shapes
      { state with
          vertices := newVertices,
          shapes := newShapes,
          selectedVertexIds := state.selectedVertexIds.filter (fun i => i ≠ id),
          history := saveHistory state }
  | .addShape shape =>
      { state with shapes := aset state.shapes shape.id shape,
                   history := saveHistory state }
  | .updateShape id updates =>
      match aget state.shapes id with
      | none => state
      | some shape =>
          { state with shapes := aset state.shapes id (updates shape) }
  | .deleteShape id =>
      match aget state.shapes id with
      | some shape =>
          if shape.type = .bezier then
            let vertexIdsToCheck :=
              shape.segments.flatMap (fun seg => [seg.p1, seg.p2])
            let orphans := vertexIdsToCheck.filter (fun vertexId =>
              ! state.shapes.any
                (fun e => e.1 != id && e.2.vertexIds.contains vertexId))
            { state with
                shapes := adel state.shapes id,
                vertices := orphans.foldl adel state.vertices,
                selectedShapeIds :=
                  state.selectedShapeIds.filter (fun i => i ≠ id),
                history := saveHistory state }
          else
            { state with
                shapes := adel state.shapes id,
                selectedShapeIds :=
                  state.selectedShapeIds.filter (fun i => i ≠ id),
                history := saveHistory state }
      | none =>
          { state with
              shapes := adel state.shapes id,
              selectedShapeIds :=
                state.selectedShapeIds.filter (fun i => i ≠ id),
              history := saveHistory state }
  | .selectVertices ids additive =>
      if additive then
        { state with selectedVertexIds :=
            setAddAll state.selectedVertexIds ids }
      else
        { state with selectedVertexIds := toSet ids }
  | .selectShapes ids additive =>
      if additive then
        { state with selectedShapeIds :=
            setAddAll state.selectedShapeIds ids }
      else
        { state with selectedShapeIds := toSet ids }
  | .hoverVertex id => { state with hoveredVertexId := id }
  | .hoverShape id => { state with hoveredShapeId := id }
  | .createGroup name shapeIds =>
      let group : ShapeGroup := ⟨freshId, name, shapeIds, false⟩
      { state with groups := aset state.groups group.id group }
  | .deleteGroup id => { state with groups := adel state.groups id }
  | .mergeVertices vertexIds targetPosition =>
      if vertexIds.length < 2 then state else
      let mergedVertex : Vertex :=
        ⟨freshId, targetPosition.1, targetPosition.2, .anchor, none⟩
      let newVertices := aset state.vertices mergedVertex.id mergedVertex
      let newShapes := state.shapes.map (fun e =>
        (e.1, mergeRewriteShape vertexIds mergedVertex.id e.2))
      { state with
          vertices := vertexIds.foldl adel newVertices,
          shapes := newShapes,
          selectedVertexIds := [mergedVertex.id],
          history := saveHistory state }
  | .importData vertices shapes groups frames =>
      { state with
          vertices := vertices,
          shapes := shapes,
          groups := groups,
          frames := match frames with | some f => f | none => state.frames,
          currentFrameIndex := 0,
          selectedVertexIds := [],
          selectedShapeIds := [],
          hoveredVertexId := none,
          hoveredShapeId := none,
          history := saveHistory state }
  | .addFrame _ => state
  | .updateFrame frameIndex updates =>
      if frameIndex < 0 ∨ (state.frames.length : ℤ) ≤ frameIndex then state else
      match getAt? state.frames frameIndex with
      | none => state
      | some frame =>
          { state with frames :=
              state.frames.set frameIndex.toNat (updates frame) }
  | .deleteFrame frameIndex =>
      if frameIndex < 0 ∨ (state.frames.length : ℤ) ≤ frameIndex then state else
      let newFrames := state.frames.eraseIdx frameIndex.toNat
      { state with
          frames := newFrames,
          currentFrameIndex :=
            min state.currentFrameIndex ((newFrames.length : ℤ) - 1) }
  | .setCurrentFrame frameIndex =>
      if frameIndex < 0 ∨ (state.frames.length : ℤ) ≤ frameIndex then state else
      { state with currentFrameIndex := frameIndex }
  | .startRecording => { state with isRecording := true }
  | .stopRecording => { state with isRecording := false }
  | .recordFrame name =>
      let n := state.frames.length + 1
      let newFrame : Frame :=
        { id := freshId,
          name := if name = "" then "Frame " ++ toString n else name,
          vertices := captureVertexPositions state,
          shapeProperties := captureShapeProperties state,
          timestamp := now }
      { state with
          frames := state.frames ++ [newFrame],
          currentFrameIndex := (state.frames.length : ℤ) }
  | .applyFrame frameIndex =>
      if frameIndex < 0 ∨ (state.frames.length : ℤ) ≤ frameIndex then state else
      match getAt? state.frames frameIndex with
      | none => state
      | some frame =>
          let newVertices := frame.vertices.foldl (fun m e =>
            match aget m e.1 with
            | some vertex => aset m e.1 { vertex with x := e.2.1, y := e.2.2 }
            | none => m) state.vertices
          let newShapes := frame.shapeProperties.foldl (fun m e =>
            match aget m e.1, e.2 with
            | some shape, some r =>
                if shape.type = .circle then
                  aset m e.1 { shape with radius := r }
                else m
            | _, _ => m) state.shapes
          { state with
              vertices := newVertices,
              shapes := newShapes,
              currentFrameIndex := frameIndex }
  | .interpolateFrames fromIndex toIndex t =>
      match getAt? state.frames fromIndex, getAt? state.frames toIndex with
      | some fromFrame, some toFrame =>
          let tc := max 0 (min 1 t)
          let newVertices := state.vertices.foldl (fun m e =>
            match aget fromFrame.vertices e.1, aget toFrame.vertices e.1 with
            | some fromPos, some toPos =>
                aset m e.1 { e.2 with
                  x := lerp fromPos.1 toPos.1 tc,
                  y := lerp fromPos.2 toPos.2 tc }
            | _, _ => m) state.vertices
          let newShapes := state.shapes.foldl (fun m e =>
            if e.2.type = .circle then
              match aget fromFrame.shapeProperties e.1,
                    aget toFrame.shapeProperties e.1 with
              | some (some fromR), some (some toR) =>
                  aset m e.1 { e.2 with radius := lerp fromR toR tc }
              | _, _ => m
            else m) state.shapes
          { state with vertices := newVertices, shapes := newShapes }
      | _, _ => state
  | .undo =>
      match state.history.past.getLast? with
      | none => state
      | some previous =>
          { state with
              vertices := previous.vertices,
              shapes := previous.shapes,
              history :=
                { past := state.history.past.dropLast,
                  future := ⟨state.vertices, state.shapes⟩ ::
                    state.history.future } }
  | .redo =>
      match state.history.future with
      | [] => state
      | next :: rest =>
          { state with
              vertices := next.vertices,
              shapes := next.shapes,
              history :=
                { past := state.history.past ++
                    [⟨state.vertices, state.shapes⟩],
                  future := rest } }
  | .clearAll => emptyState
  | .updateCurrentFrameData =>
      if state.currentFrameIndex < 0 ∨
         (state.frames.length : ℤ) ≤ state.currentFrameIndex then state else
      match getAt? state.frames state.currentFrameIndex with
      | none => state
      | some frame =>
          let newFrame : Frame :=
            { frame with
                vertices := captureVertexPositions state,
                shapeProperties := captureShapeProperties state,
                timestamp := now }
          { state with
              frames := state.frames.set state.currentFrameIndex.toNat newFrame }
  | .batchUpdate vertexUpdates shapeUpdates =>
      let newVertices := vertexUpdates.foldl (fun m p =>
        match aget m p.1 with
        | some vertex => aset m p.1 (p.2 vertex)
        | none => m) state.vertices
      let newShapes := shapeUpdates.foldl (fun m p =>
        match aget m p.1 with
        | some shape => aset m p.1 (p.2 shape)
        | none => m) state.shapes
      { state with vertices := newVertices, shapes := newShapes }

/-!
Serialization engine.  The import side receives untrusted JSON
(`data: any`); fields that may be missing are modelled with `Option`,
and string fields that the code only ever tests for falsiness
(`vertex.id`, `shape.id`, `shape.type`, `frame.id`, `frame.name`,
`style.color`) use `""` for both ''missing'' and ''empty''.  The
numeric fields the code guards with `||` (`strokeWidth`,
`properties.radius`, `coordinateSystem.gridSize`) keep `Option`,
with the falsy `0` handled at the use site exactly as the source does.
-/

/-- A vertex entry of the import JSON. -/
structure RawVertex where
  id : String
  position : Option (List ℚ)
  type : String
  parentId : Option String := none
deriving Repr, DecidableEq

/-- The `properties` object of an imported shape. -/
structure RawProps where
  radius : Option ℚ := none
  segments : Option (List BezierSegment) := none
  closed : Option Bool := none
deriving Repr, DecidableEq

/-- The `style` object of an imported shape. -/
structure RawStyle where
  color : String := ""
  strokeWidth : Option ℚ := none
  fill : String := ""
  opacity : Option ℚ := none
  visible : Option Bool := none
  locked : Option Bool := none
deriving Repr, DecidableEq

/-- A shape entry of the import JSON. -/
structure RawShape where
  id : String
  type : String
  vertexRefs : Option (List String)
  properties : RawProps := {}
  style : RawStyle := {}
deriving Repr, DecidableEq

/-- A group entry of the import JSON. -/
structure RawGroup where
  id : String
  name : String
  shapeRefs : List String
deriving Repr, DecidableEq

/-- A recorded vertex position inside an imported frame. -/
structure RawVertexPos where
  vertexId : String
  position : List ℚ
deriving Repr, DecidableEq

/-- A recorded shape property inside an imported frame. -/
structure RawShapeProp where
  shapeId : String
  radius : Option ℚ := none
deriving Repr, DecidableEq

/-- A frame entry of the import JSON. -/
structure RawFrame where
  id : String
  name : String
  timestamp : ℤ
  vertexPositions : Option (List RawVertexPos)
  shapeProperties : Option (List RawShapeProp) := none
deriving Repr, DecidableEq

/-- The `metadata.coordinateSystem` block. -/
structure RawCoordSys where
  unit : String
  gridSize : Option ℚ
deriving Repr, DecidableEq

/-- The `metadata` block (only the part the importer reads). -/
structure RawMetadata where
  coordinateSystem : Option RawCoordSys := none
deriving Repr, DecidableEq

/-- The import JSON document (`MeshExport` seen through `any`). -/
structure RawMeshExport where
  version : String := ""
  vertices : Option (List RawVertex)
  shapes : Option (List RawShape)
  groups : Option (List RawGroup)
  frames : Option (List RawFrame) := none
  metadata : Option RawMetadata := none
deriving Repr, DecidableEq

/-- The `validateImportData` function of `utils.ts`.  The version
check (`data.version?.startsWith("2.")`) only emits a `console.warn`
and never affects the returned value, so it does not appear here. -/
def validateImportData (data : RawMeshExport) : Bool :=
  match data.vertices, data.shapes, data.groups with
  | some vertices, some shapes, some groups =>
      let _ := groups
      vertices.all (fun v =>
        v.id != "" &&
        (match v.position with
         | some p => p.length == 2
         | none => false) &&
        (v.type == "anchor" || v.type == "control")) &&
      shapes.all (fun s =>
        s.id != "" && s.type != "" && s.vertexRefs.isSome) &&
      (match data.frames with
       | none => true
       | some frames =>
           frames.all (fun f =>
             f.id != "" && f.name != "" && f.vertexPositions.isSome))
  | _, _, _ => false

/-- Index into a JS array of numbers, yielding `0` where the source
would yield `undefined` (only exercised on validated data, where the
positions have length 2). -/
def posAt (p : List ℚ) (i : ℕ) : ℚ := (p.get? i).getD 0

/-- Conversion of the raw `type` string to a `VertexType`; on
validated data the string is `"anchor"` or `"control"`. -/
def parseVertexType (s : String) : VertexType :=
  if s = "control" then .control else .anchor

/-- Conversion of the raw `type` string of a shape; unknown strings
yield `none` and the shape is skipped with a warning, exactly as the
`default` branch of the `switch` in `parseImportData` does. -/
def parseShapeType (s : String) : Option ShapeType :=
  if s = "line" then some .line
  else if s = "rect" then some .rect
  else if s = "circle" then some .circle
  else if s = "bezier" then some .bezier
  else if s = "polygon" then some .polygon
  else none

/-- The result record of `parseImportData`. -/
structure ParsedImport where
  vertices : AList Vertex
  shapes : AList Shape
  groups : AList ShapeGroup
  frames : List Frame
deriving Repr, DecidableEq

/-- The `usesGridUnits` flag computed at the top of
`parseImportData`: `importData.metadata?.coordinateSystem?.unit ===
"grid"`. -/
def importUsesGrid (importData : RawMeshExport) : Bool :=
  match importData.metadata with
  | some m =>
      match m.coordinateSystem with
      | some cs => cs.unit == "grid"
      | none => false
  | none => false

/-- The `importGridSize` value computed at the top of
`parseImportData`: `importData.metadata?.coordinateSystem?.gridSize
|| gridSize` (the declared size, falling back to the session's on a
falsy value). -/
def importGridSizeOf (importData : RawMeshExport) (gridSize : ℚ) : ℚ :=
  match importData.metadata with
  | some m =>
      match m.coordinateSystem with
      | some cs =>
          match cs.gridSize with
          | some g => if g = 0 then gridSize else g
          | none => gridSize
      | none => gridSize
  | none => gridSize

/-- The `fromGridUnits` closure of `parseImportData`: scale by
the import grid size exactly when the document declares grid units. -/
def fromGridUnits (usesGrid : Bool) (igs : ℚ) (gridX gridY : ℚ) : ℚ × ℚ :=
  if usesGrid then (gridX * igs, gridY * igs) else (gridX, gridY)

/-- The per-shape `switch` of `parseImportData`: build a `Shape` from
a raw entry, or skip it (`none`) on an unknown type tag. -/
def parseShapeRaw (usesGrid : Bool) (igs : ℚ) (s : RawShape) :
    Option Shape :=
  match parseShapeType s.type with
  | none => none
  | some ty =>
      let refs := s.vertexRefs.getD []
      let style : Style :=
        { color := if s.style.color = "" then "#000000" else s.style.color,
          strokeWidth :=
            match s.style.strokeWidth with
            | some w => if w = 0 then 2 else w
            | none => 2,
          fill := s.style.fill,
          opacity := (s.style.opacity).getD 1 }
      let base : Shape :=
        { id := s.id, type := ty, vertexIds := refs, style := style,
          visible := (s.style.visible).getD true,
          locked := (s.style.locked).getD false }
      match ty with
      | .line => some base
      | .rect => some base
      | .circle =>
          let radius :=
            match s.properties.radius with
            | some r => if r = 0 then 50 else r
            | none => 50
          some { base with
                   vertexIds := [refs.headD ""],
                   radius := if usesGrid then radius * igs else radius }
      | .bezier =>
          some { base with
                   segments := (s.properties.segments).getD [],
                   closed :=
                     match s.properties.closed with
                     | some c => c
                     | none => false }
      | .polygon =>
          some { base with closed := (s.properties.closed).getD true }

/-- One step of the shape fold of `parseImportData`: `parseShape`
returning `null` skips the entry, otherwise it is stored under its
id. -/
def shapeStep (usesGrid : Bool) (igs : ℚ) (m : AList Shape)
    (s : RawShape) : AList Shape :=
  match parseShapeRaw usesGrid igs s with
  | some shape => aset m shape.id shape
  | none => m

/-- The `parseImportData` function of `utils.ts`. -/
def parseImportData (importData : RawMeshExport) (gridSize : ℚ) :
    ParsedImport :=
  let usesGridUnits : Bool := importUsesGrid importData
  let importGridSize := importGridSizeOf importData gridSize
  let fromGridUnits : ℚ → ℚ → ℚ × ℚ :=
    MeshMaker.fromGridUnits usesGridUnits importGridSize
  let vertices : AList Vertex :=
    (importData.vertices.getD []).foldl (fun m v =>
      let pos := fromGridUnits (posAt (v.position.getD []) 0)
        (posAt (v.position.getD []) 1)
      aset m v.id
        { id := v.id, x := pos.1, y := pos.2,
          type := parseVertexType v.type, parentId := v.parentId }) []
  let shapes : AList Shape :=
    (importData.shapes.getD []).foldl
      (shapeStep usesGridUnits importGridSize) []
  let groups : AList ShapeGroup :=
    (importData.groups.getD []).foldl (fun m g =>
      aset m g.id ⟨g.id, g.name, g.shapeRefs, false⟩) []
  let frames : List Frame :=
    (importData.frames.getD []).map (fun f =>
      let vertexPositions : AList (ℚ × ℚ) :=
        (f.vertexPositions.getD []).foldl (fun m vp =>
          aset m vp.vertexId
            (fromGridUnits (posAt vp.position 0) (posAt vp.position 1))) []
      let shapeProperties : AList (Option ℚ) :=
        (f.shapeProperties.getD []).foldl (fun m sp =>
          let r :=
            match sp.radius with
            | some r => if usesGridUnits then some (r * importGridSize)
                        else some r
            | none => none
          aset m sp.shapeId r) []
      { id := f.id, name := f.name, vertices := vertexPositions,
        shapeProperties := shapeProperties, timestamp := f.timestamp })
  ⟨vertices, shapes, groups, frames⟩

/-- Minimum of a list of rationals; the source folds `Math.min`
starting from `Infinity` and checks `isFinite` afterwards, which on
a nonempty list is the plain minimum (the empty case is handled by
the caller of this helper). -/
def listMin (l : List ℚ) : ℚ :=
  match l with
  | [] => 0
  | x :: xs => xs.foldl min x

/-- Every x-coordinate the export bounding box ranges over: all live
vertex positions and all frame-recorded positions. -/
def allXs (state : AppState) : List ℚ :=
  state.vertices.map (fun e => e.2.x) ++
    state.frames.flatMap (fun f => f.vertices.map (fun e => e.2.1))

/-- Every y-coordinate the export bounding box ranges over. -/
def allYs (state : AppState) : List ℚ :=
  state.vertices.map (fun e => e.2.y) ++
    state.frames.flatMap (fun f => f.vertices.map (fun e => e.2.2))

/-- The `calculateGlobalBoundingBox` origin of `exportToJSON`:
the minimum corner over live and frame-recorded positions, or
`(0, 0)` when there are none (`isFinite` guard). -/
def exportOrigin (state : AppState) : ℚ × ℚ :=
  match allXs state with
  | [] => (0, 0)
  | _ => (listMin (allXs state), listMin (allYs state))

/-- The `toGridUnits` closure of `exportToJSON`: translate by the
bounding-box origin, divide by the grid size, round to 2 decimals. -/
def toGridUnits (origin : ℚ × ℚ) (gridSize : ℚ) (p : ℚ × ℚ) : ℚ × ℚ :=
  (round2 ((p.1 - origin.1) / gridSize), round2 ((p.2 - origin.2) / gridSize))

/-- String tag of a vertex type, as serialized. -/
def vertexTypeString : VertexType → String
  | .anchor => "anchor"
  | .control => "control"

/-- String tag of a shape type, as serialized. -/
def shapeTypeString : ShapeType → String
  | .line => "line"
  | .rect => "rect"
  | .circle => "circle"
  | .bezier => "bezier"
  | .polygon => "polygon"

/-- The pure core of `exportToJSON` in `hooks/useImportExport.ts`:
the JSON document it serializes, restricted to the fields
the importer reads (the `metadata` block also records bounding-box stats
and rendering hints, which `parseImportData` never looks at). -/
def exportRawVertex (origin : ℚ × ℚ) (gridSize : ℚ) (v : Vertex) :
    RawVertex :=
  let pos := toGridUnits origin gridSize (v.x, v.y)
  { id := v.id, position := some [pos.1, pos.2],
    type := vertexTypeString v.type, parentId := v.parentId }

/-- One shape entry of the exported JSON. -/
def exportRawShape (gridSize : ℚ) (shape : Shape) : RawShape :=
  let properties : RawProps :=
    match shape.type with
    | .circle => { radius := some (round2 (shape.radius / gridSize)) }
    | .bezier => { segments := some shape.segments,
                   closed := some shape.closed }
    | .polygon => { closed := some shape.closed }
    | _ => {}
  { id := shape.id,
    type := shapeTypeString shape.type,
    vertexRefs := some shape.vertexIds,
    properties := properties,
    style :=
      { color := shape.style.color,
        strokeWidth := some shape.style.strokeWidth,
        fill := shape.style.fill,
        opacity := some shape.style.opacity,
        visible := some shape.visible,
        locked := some shape.locked } }

/-- The shape that re-importing an exported shape produces: id, type,
references, segments, closure flag and style come back verbatim (for
a style whose color is nonempty and whose stroke width is nonzero, so
the importer's falsy-defaulting does not fire); a circle's reference
list is truncated to its head and its radius goes through the
round-trip of `round2 (radius / g) * g`. -/
def importedShapeOf (g : ℚ) (sh : Shape) : Shape :=
  { id := sh.id, type := sh.type,
    vertexIds :=
      if sh.type = .circle then [sh.vertexIds.headD ""] else sh.vertexIds,
    style := sh.style, visible := sh.visible, locked := sh.locked,
    radius :=
      if sh.type = .circle then
        (if round2 (sh.radius / g) = 0 then 50 else round2 (sh.radius / g)) * g
      else 0,
    segments := if sh.type = .bezier then sh.segments else [],
    closed :=
      if sh.type = .bezier then sh.closed
      else if sh.type = .polygon then sh.closed else false }

/-- The pure core of `exportToJSON` (continued): the full document. -/
def exportToJSON (state : AppState) (gridSize : ℚ) : RawMeshExport :=
  let origin := exportOrigin state
  let grid := toGridUnits origin gridSize
  { version := "2.1.0",
    vertices := some (state.vertices.map (fun e =>
      exportRawVertex origin gridSize e.2)),
    shapes := some (state.shapes.map (fun e => exportRawShape gridSize e.2)),
    groups := some (state.groups.map (fun e => ⟨e.2.id, e.2.name, e.2.shapeIds⟩)),
    frames := some (state.frames.map (fun frame =>
      { id := frame.id,
        name := frame.name,
        timestamp := frame.timestamp,
        vertexPositions := some (frame.vertices.map (fun e =>
          let pos := grid e.2
          ⟨e.1, [pos.1, pos.2]⟩)),
        shapeProperties := some
          ((frame.shapeProperties.filter (fun e => e.2.isSome)).map (fun e =>
            ⟨e.1, e.2.map (fun r => round2 (r / gridSize))⟩)) })),
    metadata := some
      { coordinateSystem := some ⟨"grid", some gridSize⟩ } }

/-- Outcome of `importFromJSON` in `hooks/useImportExport.ts`: did it
catch an error, and what document state results (the React state only
changes through `dispatch`, so an errored import leaves it
untouched). -/
structure ImportOutcome where
  errored : Bool
  state : AppState
deriving Repr, DecidableEq

/-- The `importFromJSON` callback of `hooks/useImportExport.ts`,
taken after `JSON.parse`: validate, parse, pick merge versus replace
(`confirmMerge` stands for the user's `window.confirm` answer, asked
only when the document has content), and dispatch `IMPORT_DATA`.  A
failed validation throws, is caught, and produces only an error
status — no dispatch, document unchanged. -/
def importFromJSON (freshId : String) (now : ℤ) (state : AppState)
    (data : RawMeshExport) (gridSize : ℚ) (confirmMerge : Bool) :
    ImportOutcome :=
  if ¬ validateImportData data then ⟨true, state⟩ else
  let p := parseImportData data gridSize
  let shouldMerge := 0 < state.vertices.length ∨ 0 < state.shapes.length
  if shouldMerge then
    if confirmMerge then
      let mergedVertices :=
        p.vertices.foldl (fun m e => aset m e.1 e.2) state.vertices
      let mergedShapes :=
        p.shapes.foldl (fun m e => aset m e.1 e.2) state.shapes
      let mergedGroups :=
        p.groups.foldl (fun m e => aset m e.1 e.2) state.groups
      ⟨false, appReducer freshId now state
        (.importData mergedVertices mergedShapes mergedGroups
          (some (state.frames ++ p.frames)))⟩
    else
      ⟨false, appReducer freshId now state
        (.importData p.vertices p.shapes p.groups (some p.frames))⟩
  else
    ⟨false, appReducer freshId now state
      (.importData p.vertices p.shapes p.groups (some p.frames))⟩

/-- The defects enumerated by the import error-handling contract: a
missing top-level `vertices`/`shapes`/`groups` array, a vertex
without id, without a 2-element `position`, or with a type outside
`{anchor, control}`, or a shape without id, type, or `vertexRefs`
array. -/
def importDefect (d : RawMeshExport) : Prop :=
  d.vertices = none ∨ d.shapes = none ∨ d.groups = none ∨
  (∃ v ∈ d.vertices.getD [], v.id = "" ∨
    (match v.position with
     | some p => p.length ≠ 2
     | none => True) ∨
    (v.type ≠ "anchor" ∧ v.type ≠ "control")) ∨
  (∃ s ∈ d.shapes.getD [], s.id = "" ∨ s.type = "" ∨ s.vertexRefs = none)

/-!
Bezier tool: the right-click branch of `handleMouseDown` in
`hooks/useCanvasInteraction.ts` (lines 183-240).  With at least two
pending anchors it converts each consecutive anchor pair into one
cubic segment, synthesizing the two control vertices, and emits a
single bezier shape.  `ids` supplies the `generateId()` results for
the control vertices, in call order (pair `i` draws ids `2*i` and
`2*i + 1`).
-/

/-- The first synthesized control vertex of a pair: one third of the
way across horizontally, at the starting anchor's height. -/
def bezierControl1 (p0 p3 : Vertex) (freshId : String) : Vertex :=
  { id := freshId,
    x := p0.x + (p3.x - p0.x) * (33 / 100),
    y := p0.y,
    type := .control,
    parentId := some p0.id }

/-- The second synthesized control vertex of a pair: two thirds of
the way across horizontally, at the ending anchor's height. -/
def bezierControl2 (p0 p3 : Vertex) (freshId : String) : Vertex :=
  { id := freshId,
    x := p0.x + (p3.x - p0.x) * (66 / 100),
    y := p3.y,
    type := .control,
    parentId := some p3.id }

/-- The segment list built by the loop over consecutive anchor
pairs, together with the synthesized control vertices. -/
def buildBezierSegments (anchors : List Vertex) (ids : ℕ → String) :
    List (BezierSegment × Vertex × Vertex) :=
  (anchors.zip anchors.tail).enum.map (fun p =>
    let i := p.1
    let p0 := p.2.1
    let p3 := p.2.2
    let c1 := bezierControl1 p0 p3 (ids (2 * i))
    let c2 := bezierControl2 p0 p3 (ids (2 * i + 1))
    (⟨p0.id, c1.id, c2.id, p3.id⟩, c1, c2))

/-- The bezier shape dispatched by `ADD_SHAPE` at the end of the
right-click branch. -/
def buildBezierShape (anchors : List Vertex) (ids : ℕ → String)
    (shapeId : String) (style : Style) : Shape :=
  let segments := (buildBezierSegments anchors ids).map (·.1)
  { id := shapeId,
    type := .bezier,
    vertexIds := segments.flatMap (fun s => [s.p0, s.p1, s.p2, s.p3]),
    style := style,
    visible := true,
    locked := false,
    segments := segments,
    closed := false }

/-!
Lemma toolkit for the association-list map model.
-/

section AListLemmas

variable {α β : Type}

@[simp]
theorem aget_nil (k : String) : aget ([] : AList α) k = none := rfl

theorem aget_aset (m : AList α) (k : String) (v : α) (k' : String) :
    aget (aset m k v) k' = if k = k' then some v else aget m k' := by
  induction m with
  | nil =>
      by_cases h : k = k' <;> simp [aset, aget, h]
  | cons e rest ih =>
      obtain ⟨ek, ev⟩ := e
      by_cases h1 : ek = k
      · subst h1
        by_cases h2 : ek = k' <;> simp [aset, aget, h2]
      · by_cases h2 : ek = k'
        · subst h2
          have : ¬ k = ek := fun h => h1 h.symm
          simp [aset, aget, h1, this]
        · simp [aset, aget, h1, h2, ih]

theorem aget_filter_key (m : AList α) (p : String → Bool) (k : String) :
    aget (m.filter (fun e => p e.1)) k = if p k then aget m k else none := by
  induction m with
  | nil => cases hp : p k <;> simp [aget, hp]
  | cons e rest ih =>
      obtain ⟨ek, ev⟩ := e
      rw [List.filter_cons]
      by_cases hpe : p ek
      · by_cases hk : ek = k
        · subst hk
          simp [aget, hpe]
        · simp [aget, hpe, hk, ih]
      · by_cases hk : ek = k
        · subst hk
          simp only [hpe]
          rw [if_neg (by simp [hpe]), ih]
          simp [aget, Bool.not_eq_true] at hpe ⊢
          simp [hpe]
        · rw [if_neg (by simp [hpe]), ih]
          simp [aget, hk]

theorem aget_filter_not_contains (m : AList α) (ids : List String)
    (k : String) :
    aget (m.filter (fun e => !ids.contains e.1)) k =
      if ids.contains k then none else aget m k := by
  have h := aget_filter_key m (fun key => !ids.contains key) k
  by_cases hk : k ∈ ids
  · simp [hk] at h ⊢
    exact h
  · simp [hk] at h ⊢
    exact h

theorem aget_adel (m : AList α) (k k' : String) :
    aget (adel m k) k' = if k' = k then none else aget m k' := by
  have h := aget_filter_key m (fun s => decide (s ≠ k)) k'
  rw [show adel m k = m.filter (fun e => decide (e.1 ≠ k)) from rfl, h]
  by_cases hk : k' = k <;> simp [hk]

theorem aget_map (f : α → β) (m : AList α) (k : String) :
    aget (m.map (fun e => (e.1, f e.2))) k = (aget m k).map f := by
  induction m with
  | nil => rfl
  | cons e rest ih =>
      by_cases h : e.1 = k <;> simp [aget, h, ih]

theorem foldl_adel_eq_filter (ids : List String) (m : AList α) :
    ids.foldl adel m = m.filter (fun e => !ids.contains e.1) := by
  induction ids generalizing m with
  | nil => simp
  | cons i rest ih =>
      simp only [List.foldl_cons, ih, adel, List.filter_filter]
      apply List.filter_congr
      intro e _
      by_cases h : e.1 = i <;> simp [h]

theorem aset_of_not_mem_keys (m : AList α) (k : String) (v : α)
    (h : k ∉ m.map (·.1)) : aset m k v = m ++ [(k, v)] := by
  induction m with
  | nil => rfl
  | cons e rest ih =>
      simp only [List.map_cons, List.mem_cons] at h
      push_neg at h
      have : ¬ e.1 = k := fun hh => h.1 hh.symm
      simp [aset, this, ih h.2]

theorem foldl_aset_entries (entries init : AList α)
    (h : (init.map (·.1) ++ entries.map (·.1)).Nodup) :
    entries.foldl (fun m e => aset m e.1 e.2) init = init ++ entries := by
  induction entries generalizing init with
  | nil => simp
  | cons e rest ih =>
      rw [List.nodup_append] at h
      have hk : e.1 ∉ init.map (·.1) := by
        intro hmem
        exact h.2.2 hmem (by simp)
      have step : aset init e.1 e.2 = init ++ [e] :=
        aset_of_not_mem_keys init e.1 e.2 hk
      have hnodup : ((init ++ [e]).map (·.1) ++ rest.map (·.1)).Nodup := by
        rw [List.nodup_append]
        simp only [List.map_append, List.map_cons, List.map_nil] at *
        constructor
        · rw [List.nodup_append]
          refine ⟨h.1, by simp, ?_⟩
          intro a ha
          simp only [List.mem_singleton]
          rintro rfl
          exact h.2.2 ha (by simp)
        · refine ⟨(List.nodup_cons.mp h.2.1).2, ?_⟩
          intro a ha
          simp only [List.mem_append, List.mem_singleton] at ha
          rcases ha with ha | rfl
          · exact fun hb => h.2.2 ha (by simp [hb])
          · exact (List.nodup_cons.mp h.2.1).1
      calc (e :: rest).foldl (fun m e => aset m e.1 e.2) init
          = rest.foldl (fun m e => aset m e.1 e.2) (init ++ [e]) := by
            simp [step]
        _ = (init ++ [e]) ++ rest := ih (init ++ [e]) hnodup
        _ = init ++ e :: rest := by simp

theorem find?_eq_of_aget {m : AList α} {k : String} {v : α}
    (h : aget m k = some v) :
    m.find? (fun e => e.1 == k) = some (k, v) := by
  induction m with
  | nil => simp [aget] at h
  | cons e rest ih =>
      by_cases hk : e.1 = k
      · obtain ⟨ek, ev⟩ := e
        simp only at hk
        subst hk
        simp [aget] at h
        subst h
        simp [List.find?]
      · simp only [aget, hk, if_neg] at h
        rw [List.find?_cons_of_neg _ (by simp [hk])]
        exact ih h

theorem find?_eq_none_of_aget {m : AList α} {k : String}
    (h : aget m k = none) :
    m.find? (fun e => e.1 == k) = none := by
  induction m with
  | nil => simp
  | cons e rest ih =>
      by_cases hk : e.1 = k
      · simp [aget, hk] at h
      · simp only [aget, hk, if_neg] at h
        rw [List.find?_cons_of_neg _ (by simp [hk])]
        exact ih h

/-- The conditional-overwrite step shared by the reducer's
entry-folds: apply `f` to the folded entry and, when it yields a
value, write it under the entry's key. -/
def updStep (f : String × α → Option α) (m : AList α)
    (e : String × α) : AList α :=
  match f e with
  | some v => aset m e.1 v
  | none => m

/-- A fold over map entries that conditionally overwrites each
entry's key in an accumulator, when the touched key is not among the
folded entries, leaves that key's binding alone. -/
theorem aget_foldl_upd_not_mem (l : AList α) (init : AList α)
    (f : String × α → Option α) (k : String)
    (hk : ∀ e ∈ l, e.1 ≠ k) :
    aget (l.foldl (updStep f) init) k = aget init k := by
  induction l generalizing init with
  | nil => rfl
  | cons e rest ih =>
      have hek : e.1 ≠ k := hk e (by simp)
      have hrest : ∀ e ∈ rest, e.1 ≠ k := fun e he => hk e (by simp [he])
      simp only [List.foldl_cons]
      rw [ih _ hrest]
      cases hf : f e with
      | none => simp [updStep, hf]
      | some v => simp only [updStep, hf]; rw [aget_aset, if_neg hek]

/-- Lookup after a conditional-overwrite fold over duplicate-free
map entries: the folded entry with the looked-up key decides. -/
theorem aget_foldl_upd (l : AList α) (init : AList α)
    (f : String × α → Option α) (k : String)
    (hnd : (l.map (·.1)).Nodup) :
    aget (l.foldl (updStep f) init) k =
      match l.find? (fun e => e.1 == k) with
      | some e =>
          match f e with
          | some v => some v
          | none => aget init k
      | none => aget init k := by
  induction l generalizing init with
  | nil => rfl
  | cons e rest ih =>
      simp only [List.map_cons, List.nodup_cons] at hnd
      by_cases hek : e.1 = k
      · subst hek
        rw [List.find?_cons_of_pos _ (by simp)]
        have hrest : ∀ e' ∈ rest, e'.1 ≠ e.1 := by
          intro e' he' heq
          exact hnd.1 (heq ▸ List.mem_map_of_mem (·.1) he')
        simp only [List.foldl_cons]
        rw [aget_foldl_upd_not_mem rest _ f e.1 hrest]
        cases hf : f e with
        | none => simp [updStep, hf]
        | some v => simp only [updStep, hf]; rw [aget_aset, if_pos rfl]
      · rw [List.find?_cons_of_neg _ (by simp [hek])]
        simp only [List.foldl_cons]
        rw [ih _ hnd.2]
        have hinit : aget (updStep f init e) k = aget init k := by
          cases hf : f e with
          | none => simp [updStep, hf]
          | some v => simp only [updStep, hf]; rw [aget_aset, if_neg hek]
        cases hfind : rest.find? (fun e' => e'.1 == k) with
        | some e' => cases hf' : f e' <;> simp [hinit]
        | none => simp [hinit]

end AListLemmas

/-!
Claim theorems.
-/

/-- C8 counterexample: for the anchor pair `(0,0)`, `(100,100)` the
first synthesized control vertex sits at `(33, 0)` — at 33% of the
horizontal span with the starting anchor's y — which does not lie on
the line segment joining the two anchors (the cross product
`(cx - ax)·(by - ay) - (cy - ay)·(bx - ax)` is nonzero), contrary to
the claim's parenthetical. -/
theorem c8_counterexample :
    bezierControl1 ⟨"a", 0, 0, .anchor, none⟩
      ⟨"b", 100, 100, .anchor, none⟩ "c1" =
      ⟨"c1", 33, 0, .control, some "a"⟩ ∧
    ((bezierControl1 ⟨"a", 0, 0, .anchor, none⟩
        ⟨"b", 100, 100, .anchor, none⟩ "c1").x - 0) * (100 - 0) -
      ((bezierControl1 ⟨"a", 0, 0, .anchor, none⟩
        ⟨"b", 100, 100, .anchor, none⟩ "c1").y - 0) * (100 - 0) ≠ 0 := by
  constructor
  · norm_num [bezierControl1]
  · norm_num [bezierControl1]

/-- C8 as amended: with at least two pending anchors, the right-click
branch builds one cubic segment per consecutive anchor pair, in click
order; the two synthesized control vertices of each pair sit at 33%
and 66% of the pair's horizontal span, with the first control at the
starting anchor's y and the second at the ending anchor's y (so they
lie on the joining segment only when the two anchors share a y); one
bezier shape holding all segments in order is emitted. -/
theorem c8_bezier_construction (anchors : List Vertex) (ids : ℕ → String)
    (shapeId : String) (style : Style) (h2 : 2 ≤ anchors.length) :
    (buildBezierSegments anchors ids).length = anchors.length - 1 ∧
    (∀ i p0 p3, anchors[i]? = some p0 → anchors[i + 1]? = some p3 →
      (buildBezierSegments anchors ids)[i]? = some
        (⟨p0.id, ids (2 * i), ids (2 * i + 1), p3.id⟩,
         ⟨ids (2 * i), p0.x + (p3.x - p0.x) * (33 / 100), p0.y,
           .control, some p0.id⟩,
         ⟨ids (2 * i + 1), p0.x + (p3.x - p0.x) * (66 / 100), p3.y,
           .control, some p3.id⟩)) ∧
    (buildBezierShape anchors ids shapeId style).segments =
      (buildBezierSegments anchors ids).map (·.1) ∧
    (buildBezierShape anchors ids shapeId style).vertexIds =
      ((buildBezierSegments anchors ids).map (·.1)).flatMap
        (fun s => [s.p0, s.p1, s.p2, s.p3]) ∧
    (buildBezierShape anchors ids shapeId style).type = .bezier ∧
    (buildBezierShape anchors ids shapeId style).closed = false ∧
    (buildBezierShape anchors ids shapeId style).id = shapeId := by
  refine ⟨?_, ?_, rfl, rfl, rfl, rfl, rfl⟩
  · simp only [buildBezierSegments, List.length_map, List.enum_length,
      List.length_zip, List.length_tail]
    omega
  · intro i p0 p3 hp0 hp3
    simp only [buildBezierSegments, List.getElem?_map, List.getElem?_enum]
    have hzip : (anchors.zip anchors.tail)[i]? = some (p0, p3) := by
      show (List.zipWith Prod.mk anchors anchors.tail)[i]? = _
      rw [List.getElem?_zipWith]
      rw [hp0, List.getElem?_tail, hp3]
    rw [hzip]
    simp [bezierControl1, bezierControl2]

/-- C8 witness: three anchors at `(0,0)`, `(100,100)`, `(200,0)`
produce two segments whose control vertices sit at the 33%/66%
horizontal marks with endpoint-pinned heights. -/
theorem c8_bezier_construction_witness :
    (buildBezierSegments
      [⟨"a", 0, 0, .anchor, none⟩, ⟨"b", 100, 100, .anchor, none⟩,
       ⟨"c", 200, 0, .anchor, none⟩] (fun _ => "g")).length = 2 ∧
    (buildBezierSegments
      [⟨"a", 0, 0, .anchor, none⟩, ⟨"b", 100, 100, .anchor, none⟩,
       ⟨"c", 200, 0, .anchor, none⟩] (fun _ => "g"))[1]? =
      some (⟨"b", "g", "g", "c"⟩,
        ⟨"g", 133, 100, .control, some "b"⟩,
        ⟨"g", 166, 0, .control, some "c"⟩) := by
  have h := c8_bezier_construction
    [⟨"a", 0, 0, .anchor, none⟩, ⟨"b", 100, 100, .anchor, none⟩,
     ⟨"c", 200, 0, .anchor, none⟩] (fun _ => "g")
    "B" ⟨"#000000", 2, "", 1⟩ (by norm_num)
  refine ⟨?_, ?_⟩
  · rw [h.1]
    decide
  · have h1 := h.2.1 1 ⟨"b", 100, 100, .anchor, none⟩
      ⟨"c", 200, 0, .anchor, none⟩ (by decide) (by decide)
    rw [h1]
    norm_num

/-- Lookup in a keyed entry list built by mapping over a
duplicate-free-key source list. -/
theorem aget_entries_nodup {α β : Type} (l : List β) (key : β → String)
    (g : β → α) (hnd : (l.map key).Nodup) (v : β) (hv : v ∈ l) :
    aget (l.map (fun x => (key x, g x))) (key v) = some (g v) := by
  induction l with
  | nil => cases hv
  | cons x rest ih =>
      simp only [List.map_cons, List.nodup_cons] at hnd
      rcases List.mem_cons.mp hv with rfl | hv'
      · simp [aget]
      · by_cases hk : key x = key v
        · exfalso
          apply hnd.1
          rw [hk]
          exact List.mem_map_of_mem key hv'
        · simp only [List.map_cons, aget, hk, if_neg]
          exact ih hnd.2 hv'

/-- Lookup after a keyed `Map.set` fold from the empty map over a
duplicate-free-key source list. -/
theorem aget_foldl_keyed {α β : Type} (l : List β) (key : β → String)
    (g : β → α) (hnd : (l.map key).Nodup) (v : β) (hv : v ∈ l) :
    aget (l.foldl (fun m x => aset m (key x) (g x)) []) (key v) =
      some (g v) := by
  have hfold : l.foldl (fun m x => aset m (key x) (g x)) ([] : AList α) =
      (l.map (fun x => (key x, g x))).foldl (fun m e => aset m e.1 e.2) [] := by
    rw [List.foldl_map]
  have hkeys : ((([] : AList α).map (·.1)) ++
      ((l.map (fun x => (key x, g x))).map (·.1))).Nodup := by
    simpa [List.map_map, Function.comp] using hnd
  rw [hfold, foldl_aset_entries _ [] hkeys]
  simpa using aget_entries_nodup l key g hnd v hv

/-- Per-vertex description of the vertex map `parseImportData`
builds: the raw position run through `fromGridUnits`. -/
theorem parse_vertices_lookup (d : RawMeshExport) (g : ℚ)
    (hnd : ((d.vertices.getD []).map (·.id)).Nodup)
    (v : RawVertex) (hv : v ∈ d.vertices.getD []) :
    aget (parseImportData d g).vertices v.id =
      some { id := v.id,
             x := (fromGridUnits (importUsesGrid d) (importGridSizeOf d g)
                     (posAt (v.position.getD []) 0)
                     (posAt (v.position.getD []) 1)).1,
             y := (fromGridUnits (importUsesGrid d) (importGridSizeOf d g)
                     (posAt (v.position.getD []) 0)
                     (posAt (v.position.getD []) 1)).2,
             type := parseVertexType v.type,
             parentId := v.parentId } := by
  have h := aget_foldl_keyed (α := Vertex) (d.vertices.getD [])
    (fun v => v.id)
    (fun v =>
      ({ id := v.id,
         x := (fromGridUnits (importUsesGrid d) (importGridSizeOf d g)
                 (posAt (v.position.getD []) 0)
                 (posAt (v.position.getD []) 1)).1,
         y := (fromGridUnits (importUsesGrid d) (importGridSizeOf d g)
                 (posAt (v.position.getD []) 0)
                 (posAt (v.position.getD []) 1)).2,
         type := parseVertexType v.type,
         parentId := v.parentId } : Vertex)) hnd v hv
  exact h

/-- A grid-unit document with no `metadata` block, as produced by an
external tool: one vertex at grid position `[5, 0]`. -/
def c6doc : RawMeshExport :=
  { version := "2.1.0",
    vertices := some [{ id := "a", position := some [5, 0],
                        type := "anchor" }],
    shapes := some [], groups := some [] }

/-- C6 counterexample: importing `c6doc` with session grid size 20
leaves the position at `5` instead of multiplying it by the live
session's grid setting (the claim would require `x = 100`). -/
theorem c6_counterexample :
    aget (parseImportData c6doc 20).vertices "a" =
      some ⟨"a", 5, 0, .anchor, none⟩ ∧
    aget (parseImportData c6doc 20).vertices "a" ≠
      some ⟨"a", 100, 0, .anchor, none⟩ := by
  constructor
  · decide
  · decide

/-- C6 as amended: positions are converted (multiplied by a grid
size) only when the document declares `coordinateSystem.unit =
"grid"`; the multiplier is the declared `coordinateSystem.gridSize`
when it is present and nonzero, falling back to the importing
session's grid size otherwise; a document without grid-unit metadata
is imported with its positions unchanged. -/
theorem c6_import_grid_size (d : RawMeshExport) (g : ℚ)
    (hnd : ((d.vertices.getD []).map (·.id)).Nodup) :
    (∀ v ∈ d.vertices.getD [], importUsesGrid d = false →
      aget (parseImportData d g).vertices v.id =
        some { id := v.id, x := posAt (v.position.getD []) 0,
               y := posAt (v.position.getD []) 1,
               type := parseVertexType v.type, parentId := v.parentId }) ∧
    (∀ v ∈ d.vertices.getD [], importUsesGrid d = true →
      aget (parseImportData d g).vertices v.id =
        some { id := v.id,
               x := posAt (v.position.getD []) 0 * importGridSizeOf d g,
               y := posAt (v.position.getD []) 1 * importGridSizeOf d g,
               type := parseVertexType v.type, parentId := v.parentId }) ∧
    (d.metadata = none → importUsesGrid d = false) ∧
    (∀ m cs, d.metadata = some m → m.coordinateSystem = some cs →
      cs.unit ≠ "grid" → importUsesGrid d = false) ∧
    (∀ m cs gs, d.metadata = some m → m.coordinateSystem = some cs →
      cs.gridSize = some gs → gs ≠ 0 → importGridSizeOf d g = gs) ∧
    (∀ m cs, d.metadata = some m → m.coordinateSystem = some cs →
      (cs.gridSize = none ∨ cs.gridSize = some 0) →
      importGridSizeOf d g = g) := by
  refine ⟨?_, ?_, ?_, ?_, ?_, ?_⟩
  · intro v hv hflag
    rw [parse_vertices_lookup d g hnd v hv]
    simp [fromGridUnits, hflag]
  · intro v hv hflag
    rw [parse_vertices_lookup d g hnd v hv]
    simp [fromGridUnits, hflag]
  · intro hmeta
    simp [importUsesGrid, hmeta]
  · intro m cs hmeta hcs hunit
    simp [importUsesGrid, hmeta, hcs, hunit]
  · intro m cs gs hmeta hcs hgs hne
    simp [importGridSizeOf, hmeta, hcs, hgs, hne]
  · intro m cs hmeta hcs hgs
    rcases hgs with hgs | hgs <;>
      simp [importGridSizeOf, hmeta, hcs, hgs]

/-- The `c6doc` document with declared grid metadata of size 7. -/
def c6docGrid7 : RawMeshExport :=
  { c6doc with
      metadata := some { coordinateSystem := some ⟨"grid", some 7⟩ } }

/-- The `c6doc` document with a falsy declared grid size. -/
def c6docGrid0 : RawMeshExport :=
  { c6doc with
      metadata := some { coordinateSystem := some ⟨"grid", some 0⟩ } }

/-- C6 witness: the no-metadata document imports unconverted; the
same document with declared grid metadata of size 7 imports scaled
by 7; with a declared size of 0 it falls back to the session's 20. -/
theorem c6_import_grid_size_witness :
    aget (parseImportData c6doc 20).vertices "a" =
      some ⟨"a", 5, 0, .anchor, none⟩ ∧
    aget (parseImportData c6docGrid7 20).vertices "a" =
      some ⟨"a", 35, 0, .anchor, none⟩ ∧
    importGridSizeOf c6docGrid0 20 = 20 := by
  have h1 := (c6_import_grid_size c6doc 20 (by decide)).1
    { id := "a", position := some [5, 0], type := "anchor" }
    (by decide) (by decide)
  have h2 := (c6_import_grid_size c6docGrid7 20 (by decide)).2.1
    { id := "a", position := some [5, 0], type := "anchor" }
    (by decide) (by decide)
  have h3 := (c6_import_grid_size c6docGrid0 20 (by decide)).2.2.2.2.2
    { coordinateSystem := some ⟨"grid", some 0⟩ } ⟨"grid", some 0⟩
    rfl rfl (Or.inr rfl)
  refine ⟨?_, ?_, h3⟩
  · rw [h1]
    simp [posAt, c6doc, parseVertexType]
  · rw [h2]
    simp [posAt, c6docGrid7, c6doc, importGridSizeOf, parseVertexType]
    norm_num

/-- Driver: apply a list of dispatches (each with its own
`generateId()` result and `Date.now()` value) in order. -/
def runActions (s : AppState) (steps : List (String × ℤ × Action)) : AppState :=
  steps.foldl (fun st p => appReducer p.1 p.2.1 st p.2.2) s

/-- The `slice(-50)` in `saveHistory` keeps the stored history within
the bound, and the redo stack is cleared. -/
theorem saveHistory_sum_le (s : AppState) :
    (saveHistory s).past.length + (saveHistory s).future.length ≤ 50 := by
  simp [saveHistory, takeLast]
  omega

/-- Every action preserves the bound
`past.length + future.length ≤ 50` on the history stacks. -/
theorem appReducer_history_sum_le (freshId : String) (now : ℤ)
    (s : AppState) (a : Action)
    (h : s.history.past.length + s.history.future.length ≤ 50) :
    (appReducer freshId now s a).history.past.length +
      (appReducer freshId now s a).history.future.length ≤ 50 := by
  cases a with
  | addVertex v => exact saveHistory_sum_le s
  | updateVertex id f =>
      simp only [appReducer]
      split
      · exact h
      · exact h
  | deleteVertex id => exact saveHistory_sum_le s
  | addShape sh => exact saveHistory_sum_le s
  | updateShape id f =>
      simp only [appReducer]
      split
      · exact h
      · exact h
  | deleteShape id =>
      simp only [appReducer]
      split
      · split
        · exact saveHistory_sum_le s
        · exact saveHistory_sum_le s
      · exact saveHistory_sum_le s
  | selectVertices ids additive =>
      simp only [appReducer]
      split
      · exact h
      · exact h
  | selectShapes ids additive =>
      simp only [appReducer]
      split
      · exact h
      · exact h
  | hoverVertex id => exact h
  | hoverShape id => exact h
  | createGroup name shapeIds => exact h
  | deleteGroup id => exact h
  | mergeVertices ids pos =>
      simp only [appReducer]
      split
      · exact h
      · exact saveHistory_sum_le s
  | importData v sh g f => exact saveHistory_sum_le s
  | addFrame f => exact h
  | updateFrame i f =>
      simp only [appReducer]
      split
      · exact h
      · split
        · exact h
        · exact h
  | deleteFrame i =>
      simp only [appReducer]
      split
      · exact h
      · exact h
  | setCurrentFrame i =>
      simp only [appReducer]
      split
      · exact h
      · exact h
  | startRecording => exact h
  | stopRecording => exact h
  | recordFrame name => exact h
  | applyFrame i =>
      simp only [appReducer]
      split
      · exact h
      · split
        · exact h
        · exact h
  | interpolateFrames i j t =>
      simp only [appReducer]
      split
      · exact h
      · exact h
  | undo =>
      simp only [appReducer]
      split
      · exact h
      · rename_i prev heq
        have hne : s.history.past ≠ [] := by
          intro h0
          rw [h0] at heq
          cases heq
        have hpos : 1 ≤ s.history.past.length :=
          List.length_pos.mpr hne
        simp only [List.length_dropLast, List.length_cons]
        omega
  | redo =>
      simp only [appReducer]
      split
      · exact h
      · rename_i next rest heq
        have : s.history.future.length = rest.length + 1 := by
          rw [heq]
          rfl
        simp only [List.length_append, List.length_cons, List.length_nil]
        omega
  | clearAll =>
      show (0 : ℕ) + 0 ≤ 50
      norm_num
  | updateCurrentFrameData =>
      simp only [appReducer]
      split
      · exact h
      · split
        · exact h
        · exact h
  | batchUpdate vu su => exact h

/-- The history-sum bound holds along any action sequence from any
state satisfying it. -/
theorem runActions_history_sum_le (steps : List (String × ℤ × Action))
    (s : AppState)
    (h : s.history.past.length + s.history.future.length ≤ 50) :
    (runActions s steps).history.past.length +
      (runActions s steps).history.future.length ≤ 50 := by
  induction steps generalizing s with
  | nil => exact h
  | cons p rest ih =>
      exact ih _ (appReducer_history_sum_le p.1 p.2.1 s p.2.2 h)

/-- C5: import fails — reports an error and leaves the document
completely unmodified — whenever a required field from the claim's
list is missing or malformed; the version field never affects
validation, so a version mismatch alone cannot block an otherwise
valid import. -/
theorem c5_import_validation (freshId : String) (now : ℤ)
    (state : AppState) (d : RawMeshExport) (gridSize : ℚ)
    (confirmMerge : Bool) :
    (importDefect d →
      importFromJSON freshId now state d gridSize confirmMerge =
        ⟨true, state⟩) ∧
    (∀ version : String,
      validateImportData { d with version := version } =
        validateImportData d) ∧
    (validateImportData d = true → ∀ version : String,
      (importFromJSON freshId now state { d with version := version }
        gridSize confirmMerge).errored = false) := by
  have hval : importDefect d → validateImportData d = false := by
    intro hdef
    rcases hv : d.vertices with _ | vs
    · rcases hs : d.shapes with _ | ss <;>
        rcases hg : d.groups with _ | gs <;>
        simp [validateImportData, hv, hs, hg]
    · rcases hs : d.shapes with _ | ss
      · rcases hg : d.groups with _ | gs <;>
          simp [validateImportData, hv, hs, hg]
      · rcases hg : d.groups with _ | gs
        · simp [validateImportData, hv, hs, hg]
        · rcases hdef with h | h | h | ⟨v, hvmem, hdef⟩ | ⟨s', hsmem, hdef⟩
          · rw [hv] at h
            cases h
          · rw [hs] at h
            cases h
          · rw [hg] at h
            cases h
          · rw [hv] at hvmem
            simp only [Option.getD_some] at hvmem
            have hall : vs.all (fun v =>
                v.id != "" &&
                (match v.position with
                 | some p => p.length == 2
                 | none => false) &&
                (v.type == "anchor" || v.type == "control")) = false := by
              rw [List.all_eq_false]
              refine ⟨v, hvmem, ?_⟩
              intro hf
              simp only [Bool.and_eq_true, Bool.or_eq_true, bne_iff_ne,
                beq_iff_eq] at hf
              rcases hdef with h | h | h
              · exact hf.1.1 h
              · rcases hp : v.position with _ | p
                · rw [hp] at hf
                  simp at hf
                · rw [hp] at hf h
                  simp only [beq_iff_eq] at hf
                  exact h hf.1.2
              · rcases hf.2 with ht | ht
                · exact h.1 ht
                · exact h.2 ht
            simp [validateImportData, hv, hs, hg, hall]
          · rw [hs] at hsmem
            simp only [Option.getD_some] at hsmem
            have hall : ss.all (fun s =>
                s.id != "" && s.type != "" && s.vertexRefs.isSome) = false := by
              rw [List.all_eq_false]
              refine ⟨s', hsmem, ?_⟩
              intro hf
              simp only [Bool.and_eq_true, bne_iff_ne,
                Option.isSome_iff_exists] at hf
              rcases hdef with h | h | h
              · exact hf.1.1 h
              · exact hf.1.2 h
              · obtain ⟨x, hx⟩ := hf.2
                rw [h] at hx
                cases hx
            simp [validateImportData, hv, hs, hg, hall]
  refine ⟨?_, fun version => rfl, ?_⟩
  · intro hdef
    simp [importFromJSON, hval hdef]
  · intro hvalid version
    have hvv : validateImportData { d with version := version } = true := hvalid
    simp only [importFromJSON, hvv]
    norm_num
    split <;> [skip; rfl] <;> split <;> rfl

/-- C5 witness: a vertex without an id makes the import fail and
leaves the (nonempty) document untouched; the same malformed-free
document imports successfully even with version `"9.9.9"`. -/
theorem c5_import_validation_witness :
    importFromJSON "" 0 c9doc
      { version := "2.1.0",
        vertices := some [{ id := "", position := some [0, 0],
                            type := "anchor" }],
        shapes := some [], groups := some [] } 20 false =
      ⟨true, c9doc⟩ ∧
    (importFromJSON "" 0 c9doc
      { version := "9.9.9",
        vertices := some [{ id := "w", position := some [0, 0],
                            type := "anchor" }],
        shapes := some [], groups := some [] } 20 false).errored = false := by
  constructor
  · exact (c5_import_validation "" 0 c9doc
      { version := "2.1.0",
        vertices := some [{ id := "", position := some [0, 0],
                            type := "anchor" }],
        shapes := some [], groups := some [] } 20 false).1
      (Or.inr (Or.inr (Or.inr (Or.inl
        ⟨{ id := "", position := some [0, 0], type := "anchor" },
          by decide, Or.inl rfl⟩))))
  · exact (c5_import_validation "" 0 c9doc
      { version := "x",
        vertices := some [{ id := "w", position := some [0, 0],
                            type := "anchor" }],
        shapes := some [], groups := some [] } 20 false).2.2
      (by decide) "9.9.9"

/-- The 60 structural edits of the C4 scenario: distinct vertex
additions. -/
def c4edits : List (String × ℤ × Action) :=
  (List.range 60).map (fun k =>
    ("", 0, Action.addVertex ⟨"v" ++ toString k, (k : ℚ), 0, .anchor, none⟩))

/-- Fifty undos. -/
def c4undos : List (String × ℤ × Action) :=
  List.replicate 50 ("", 0, Action.undo)

/-- C4: along any action sequence from the empty document the past
stack never exceeds 50 snapshots; after the 60 structural edits of
the scenario it holds exactly 50, and 50 undos restore the document
(vertices and shapes) of the state after the 10th edit — not the
empty document. -/
theorem c4_history_bound :
    (∀ steps : List (String × ℤ × Action),
      (runActions emptyState steps).history.past.length ≤ 50) ∧
    (runActions emptyState c4edits).history.past.length = 50 ∧
    (runActions (runActions emptyState c4edits) c4undos).vertices =
      (runActions emptyState (c4edits.take 10)).vertices ∧
    (runActions (runActions emptyState c4edits) c4undos).shapes =
      (runActions emptyState (c4edits.take 10)).shapes ∧
    (runActions (runActions emptyState c4edits) c4undos).vertices ≠
      emptyState.vertices := by
  refine ⟨?_, ?_, ?_, ?_, ?_⟩
  · intro steps
    have hb := runActions_history_sum_le steps emptyState (by decide)
    omega
  · decide
  · decide
  · decide
  · decide

/-- Referential integrity: every vertex id referenced by a surviving
shape exists in the vertex map. -/
def refIntegrity (s : AppState) : Prop :=
  ∀ e ∈ s.shapes, ∀ vid ∈ e.2.vertexIds, (aget s.vertices vid).isSome = true

/-- Entries of a duplicate-free-keyed map with equal keys are equal. -/
theorem eq_of_mem_keys_nodup {α : Type} {m : AList α}
    (hnd : (m.map (·.1)).Nodup) {e e' : String × α}
    (he : e ∈ m) (he' : e' ∈ m) (hk : e.1 = e'.1) : e = e' := by
  induction m with
  | nil => cases he
  | cons a rest ih =>
      simp only [List.map_cons, List.nodup_cons] at hnd
      rcases List.mem_cons.mp he with he1 | he1
      · rcases List.mem_cons.mp he' with he2 | he2
        · rw [he1, he2]
        · exfalso
          apply hnd.1
          have h1 : e'.1 ∈ List.map (fun x => x.1) rest :=
            List.mem_map_of_mem (·.1) he2
          rw [← hk] at h1
          rw [he1] at h1
          exact h1
      · rcases List.mem_cons.mp he' with he2 | he2
        · exfalso
          apply hnd.1
          have h1 : e.1 ∈ List.map (fun x => x.1) rest :=
            List.mem_map_of_mem (·.1) he1
          rw [hk] at h1
          rw [he2] at h1
          exact h1
        · exact ih hnd.2 he1 he2

/-- C2 counterexample: the reducer performs no validation on
`ADD_SHAPE`, so a single action starting from the empty document
produces a surviving shape whose referenced vertex ids do not exist —
refuting the claim that referential integrity holds after all
sequences of actions. -/
theorem c2_counterexample :
    ¬ refIntegrity (appReducer "" 0 emptyState
      (.addShape { id := "s1", type := .line, vertexIds := ["a", "b"],
                   style := ⟨"#000000", 2, "", 1⟩, visible := true,
                   locked := false })) := by
  intro h
  exact absurd
    (h ("s1", { id := "s1", type := .line, vertexIds := ["a", "b"],
                style := ⟨"#000000", 2, "", 1⟩, visible := true,
                locked := false }) (by decide) "a" (by decide))
    (by decide)

/-- C2 as amended: `DELETE_VERTEX id` deletes the vertex, removes
exactly the shapes whose `vertexIds` reference `id` (all N of them
and no others), drops `id` from the vertex selection, and preserves
referential integrity; but the invariant does not hold across all
action sequences, because `ADD_SHAPE` (and likewise `IMPORT_DATA`,
`UPDATE_SHAPE`, `BATCH_UPDATE`) inserts caller-supplied references
without validation. -/
theorem c2_delete_vertex (freshId : String) (now : ℤ) (s : AppState)
    (id : String) (hnd : (s.shapes.map (·.1)).Nodup) :
    (appReducer freshId now s (.deleteVertex id)).shapes =
      s.shapes.filter (fun e => !e.2.vertexIds.contains id) ∧
    (appReducer freshId now s (.deleteVertex id)).vertices =
      adel s.vertices id ∧
    id ∉ (appReducer freshId now s (.deleteVertex id)).selectedVertexIds ∧
    (refIntegrity s →
      refIntegrity (appReducer freshId now s (.deleteVertex id))) := by
  have hshapes : (appReducer freshId now s (.deleteVertex id)).shapes =
      s.shapes.filter (fun e => !e.2.vertexIds.contains id) := by
    show ((s.shapes.filter (fun e => e.2.vertexIds.contains id)).map
      (·.1)).foldl adel s.shapes = _
    rw [foldl_adel_eq_filter]
    apply List.filter_congr
    intro e he
    have hiff : ((s.shapes.filter
        (fun e => e.2.vertexIds.contains id)).map (·.1)).contains e.1 =
        e.2.vertexIds.contains id := by
      by_cases hp : id ∈ e.2.vertexIds
      · have hm : e.1 ∈ (s.shapes.filter
            (fun e => e.2.vertexIds.contains id)).map (·.1) :=
          List.mem_map_of_mem (·.1)
            (List.mem_filter.mpr ⟨he, by simpa using hp⟩)
        simp [hm, hp]
        exact ⟨e.2, he, hp⟩
      · have hm : e.1 ∉ (s.shapes.filter
            (fun e => e.2.vertexIds.contains id)).map (·.1) := by
          intro hmem
          obtain ⟨e', he', hk⟩ := List.mem_map.mp hmem
          have heq := eq_of_mem_keys_nodup hnd
            (List.mem_of_mem_filter he') he hk
          subst heq
          exact hp (by simpa using (List.mem_filter.mp he').2)
        simp [hm, hp]
        intro x hx
        have heq := eq_of_mem_keys_nodup hnd hx he rfl
        have hxe : x = e.2 := congrArg Prod.snd heq
        rw [hxe]
        exact hp
    show (!((s.shapes.filter
        (fun e => e.2.vertexIds.contains id)).map (·.1)).contains e.1) =
      (!e.2.vertexIds.contains id)
    rw [hiff]
  refine ⟨hshapes, rfl, ?_, ?_⟩
  · show id ∉ s.selectedVertexIds.filter (fun i => i ≠ id)
    intro hmem
    have := List.mem_filter.mp hmem
    simp at this
  · intro hint e he vid hv
    rw [hshapes] at he
    have he' := List.mem_filter.mp he
    show (aget (adel s.vertices id) vid).isSome = true
    rw [aget_adel, if_neg]
    · exact hint e he'.1 vid hv
    · rintro rfl
      have := he'.2
      simp at this
      exact this hv

/-- C2 witness: deleting vertex `b` from a document with three lines
removes exactly the two lines referencing `b`, keeps the third,
removes `b` itself and keeps the selection free of `b`. -/
theorem c2_delete_vertex_witness :
    (appReducer "" 0
      { emptyState with
          vertices := [("a", ⟨"a", 0, 0, .anchor, none⟩),
                       ("b", ⟨"b", 1, 0, .anchor, none⟩),
                       ("c", ⟨"c", 2, 0, .anchor, none⟩)],
          shapes := [("L1", { id := "L1", type := .line,
                              vertexIds := ["a", "b"],
                              style := ⟨"#000000", 2, "", 1⟩,
                              visible := true, locked := false }),
                     ("L2", { id := "L2", type := .line,
                              vertexIds := ["b", "c"],
                              style := ⟨"#000000", 2, "", 1⟩,
                              visible := true, locked := false }),
                     ("L3", { id := "L3", type := .line,
                              vertexIds := ["a", "c"],
                              style := ⟨"#000000", 2, "", 1⟩,
                              visible := true, locked := false })],
          selectedVertexIds := ["b"] }
      (.deleteVertex "b")).shapes =
      [("L3", { id := "L3", type := .line, vertexIds := ["a", "c"],
                style := ⟨"#000000", 2, "", 1⟩,
                visible := true, locked := false })] ∧
    "b" ∉ (appReducer "" 0
      { emptyState with
          vertices := [("a", ⟨"a", 0, 0, .anchor, none⟩),
                       ("b", ⟨"b", 1, 0, .anchor, none⟩),
                       ("c", ⟨"c", 2, 0, .anchor, none⟩)],
          shapes := [("L1", { id := "L1", type := .line,
                              vertexIds := ["a", "b"],
                              style := ⟨"#000000", 2, "", 1⟩,
                              visible := true, locked := false }),
                     ("L2", { id := "L2", type := .line,
                              vertexIds := ["b", "c"],
                              style := ⟨"#000000", 2, "", 1⟩,
                              visible := true, locked := false }),
                     ("L3", { id := "L3", type := .line,
                              vertexIds := ["a", "c"],
                              style := ⟨"#000000", 2, "", 1⟩,
                              visible := true, locked := false })],
          selectedVertexIds := ["b"] }
      (.deleteVertex "b")).selectedVertexIds := by
  have h := c2_delete_vertex "" 0
    { emptyState with
        vertices := [("a", ⟨"a", 0, 0, .anchor, none⟩),
                     ("b", ⟨"b", 1, 0, .anchor, none⟩),
                     ("c", ⟨"c", 2, 0, .anchor, none⟩)],
        shapes := [("L1", { id := "L1", type := .line,
                            vertexIds := ["a", "b"],
                            style := ⟨"#000000", 2, "", 1⟩,
                            visible := true, locked := false }),
                   ("L2", { id := "L2", type := .line,
                            vertexIds := ["b", "c"],
                            style := ⟨"#000000", 2, "", 1⟩,
                            visible := true, locked := false }),
                   ("L3", { id := "L3", type := .line,
                            vertexIds := ["a", "c"],
                            style := ⟨"#000000", 2, "", 1⟩,
                            visible := true, locked := false })],
        selectedVertexIds := ["b"] }
    "b" (by decide)
  refine ⟨?_, h.2.2.1⟩
  rw [h.1]
  decide

/-- A one-bezier document whose segment anchors `a`, `b` and control
points `c1`, `c2` are referenced by no other shape. -/
def c7doc : AppState :=
  { emptyState with
      vertices := [("a", ⟨"a", 0, 0, .anchor, none⟩),
                   ("b", ⟨"b", 10, 0, .anchor, none⟩),
                   ("c1", ⟨"c1", 3, 0, .control, some "a"⟩),
                   ("c2", ⟨"c2", 6, 0, .control, some "b"⟩)],
      shapes := [("B", { id := "B", type := .bezier,
                         vertexIds := ["a", "c1", "c2", "b"],
                         style := ⟨"#000000", 2, "", 1⟩, visible := true,
                         locked := false,
                         segments := [⟨"a", "c1", "c2", "b"⟩] })] }

/-- C7 counterexample: deleting the only bezier of `c7doc` leaves the
segment anchor `a` (a `p0` field) in the vertex map even though no
surviving shape references it — the claim says every segment-referenced
vertex (`p0..p3`) not referenced elsewhere is deleted, so it would
require `a` to be removed.  The control point `c1` (a `p1` field) is
removed. -/
theorem c7_counterexample :
    aget (appReducer "" 0 c7doc (.deleteShape "B")).vertices "a" =
      some ⟨"a", 0, 0, .anchor, none⟩ ∧
    aget (appReducer "" 0 c7doc (.deleteShape "B")).vertices "c1" = none ∧
    (∀ e ∈ (appReducer "" 0 c7doc (.deleteShape "B")).shapes,
      "a" ∉ e.2.vertexIds) := by
  refine ⟨by decide, by decide, ?_⟩
  intro e he
  simp only [show (appReducer "" 0 c7doc (.deleteShape "B")).shapes = []
    from by decide] at he
  cases he

/-- C7 as amended: deleting a bezier shape removes the shape, drops
its id from the shape selection, and cascades exactly the vertices
appearing in a segment's `p1` or `p2` field (the synthesized control
points) that no other surviving shape references through its
`vertexIds`; `p0`/`p3` anchors and any vertex referenced elsewhere
are kept. -/
theorem c7_delete_bezier_cascade (freshId : String) (now : ℤ)
    (s : AppState) (id : String) (shape : Shape)
    (hsh : aget s.shapes id = some shape) (hty : shape.type = .bezier) :
    (appReducer freshId now s (.deleteShape id)).shapes = adel s.shapes id ∧
    (appReducer freshId now s (.deleteShape id)).selectedShapeIds =
      s.selectedShapeIds.filter (fun i => i ≠ id) ∧
    (∀ vid, (∃ sg ∈ shape.segments, sg.p1 = vid ∨ sg.p2 = vid) →
      (¬ ∃ e ∈ s.shapes, e.1 ≠ id ∧ vid ∈ e.2.vertexIds) →
      aget (appReducer freshId now s (.deleteShape id)).vertices vid = none) ∧
    (∀ vid, (¬ ∃ sg ∈ shape.segments, sg.p1 = vid ∨ sg.p2 = vid) →
      aget (appReducer freshId now s (.deleteShape id)).vertices vid =
        aget s.vertices vid) ∧
    (∀ vid, (∃ e ∈ s.shapes, e.1 ≠ id ∧ vid ∈ e.2.vertexIds) →
      aget (appReducer freshId now s (.deleteShape id)).vertices vid =
        aget s.vertices vid) := by
  have hred : appReducer freshId now s (.deleteShape id) =
      { s with
          shapes := adel s.shapes id,
          vertices :=
            (((shape.segments.flatMap (fun seg => [seg.p1, seg.p2])).filter
              (fun vertexId =>
                ! s.shapes.any
                  (fun e => e.1 != id && e.2.vertexIds.contains vertexId)))).foldl
              adel s.vertices,
          selectedShapeIds := s.selectedShapeIds.filter (fun i => i ≠ id),
          history := saveHistory s } := by
    show (match aget s.shapes id with
      | some shape => _
      | none => _) = _
    rw [hsh]
    simp only
    rw [if_pos hty]
  have horph : ∀ vid,
      ((shape.segments.flatMap (fun seg => [seg.p1, seg.p2])).filter
        (fun vertexId =>
          ! s.shapes.any
            (fun e => e.1 != id && e.2.vertexIds.contains vertexId))).contains
        vid = true ↔
      ((∃ sg ∈ shape.segments, sg.p1 = vid ∨ sg.p2 = vid) ∧
       ¬ ∃ e ∈ s.shapes, e.1 ≠ id ∧ vid ∈ e.2.vertexIds) := by
    intro vid
    simp [List.mem_filter, List.mem_flatMap]
    aesop
  refine ⟨?_, ?_, ?_, ?_, ?_⟩
  · rw [hred]
  · rw [hred]
  · intro vid hc hnu
    rw [hred]
    show aget (List.foldl adel s.vertices _) vid = _
    rw [foldl_adel_eq_filter, aget_filter_not_contains]
    rw [if_pos ((horph vid).mpr ⟨hc, hnu⟩)]
  · intro vid hnc
    rw [hred]
    show aget (List.foldl adel s.vertices _) vid = _
    rw [foldl_adel_eq_filter, aget_filter_not_contains]
    rw [if_neg (fun hmem => hnc ((horph vid).mp hmem).1)]
  · intro vid hu
    rw [hred]
    show aget (List.foldl adel s.vertices _) vid = _
    rw [foldl_adel_eq_filter, aget_filter_not_contains]
    rw [if_neg (fun hmem => ((horph vid).mp hmem).2 hu)]

/-- C7 witness: on `c7doc`, deleting the bezier keeps the anchors and
removes the orphaned control points. -/
theorem c7_delete_bezier_cascade_witness :
    (appReducer "" 0 c7doc (.deleteShape "B")).shapes = [] ∧
    aget (appReducer "" 0 c7doc (.deleteShape "B")).vertices "c2" = none ∧
    aget (appReducer "" 0 c7doc (.deleteShape "B")).vertices "b" =
      some ⟨"b", 10, 0, .anchor, none⟩ := by
  have h := c7_delete_bezier_cascade "" 0 c7doc "B"
    { id := "B", type := .bezier, vertexIds := ["a", "c1", "c2", "b"],
      style := ⟨"#000000", 2, "", 1⟩, visible := true, locked := false,
      segments := [⟨"a", "c1", "c2", "b"⟩] }
    (by decide) (by decide)
  refine ⟨?_, ?_, ?_⟩
  · rw [h.1]
    decide
  · have := h.2.2.1 "c2" ⟨⟨"a", "c1", "c2", "b"⟩, by decide, by decide⟩
      (by decide)
    exact this
  · have := h.2.2.2.1 "b" (by decide)
    rw [this]
    decide

/-- C10: `DELETE_FRAME` on an in-range index sets the current frame
index to `min(currentFrameIndex, newFrameCount - 1)`; deleting the
only remaining frame therefore drives `currentFrameIndex` to `-1`,
so `currentFrameIndex ≥ 0` is not preserved by every action. -/
theorem c10_delete_frame_clamps_index (freshId : String) (now : ℤ)
    (s : AppState) (i : ℤ) (h0 : 0 ≤ i) (h1 : i < (s.frames.length : ℤ)) :
    (appReducer freshId now s (.deleteFrame i)).currentFrameIndex =
      min s.currentFrameIndex (((s.frames.length : ℤ) - 1) - 1) ∧
    (s.frames.length = 1 → 0 ≤ s.currentFrameIndex →
      (appReducer freshId now s (.deleteFrame i)).currentFrameIndex = -1 ∧
      (appReducer freshId now s (.deleteFrame i)).currentFrameIndex < 0) := by
  have hguard : ¬ (i < 0 ∨ (s.frames.length : ℤ) ≤ i) := by
    push_neg
    exact ⟨h0, h1⟩
  have hlen : (s.frames.eraseIdx i.toNat).length = s.frames.length - 1 := by
    rw [List.length_eraseIdx]
    rw [if_pos (by omega)]
  have hcast : ((s.frames.eraseIdx i.toNat).length : ℤ) =
      (s.frames.length : ℤ) - 1 := by
    rw [hlen]
    have : 1 ≤ s.frames.length := by omega
    omega
  have hmain :
      (appReducer freshId now s (.deleteFrame i)).currentFrameIndex =
        min s.currentFrameIndex (((s.frames.length : ℤ) - 1) - 1) := by
    simp only [appReducer, hguard, if_neg, not_false_eq_true]
    rw [hcast]
  refine ⟨hmain, fun hone hpos => ?_⟩
  rw [hmain, hone]
  norm_num
  omega

/-- The per-vertex update the `INTERPOLATE_FRAMES` case performs:
`some` of the interpolated vertex when both frames record a position
for it, `none` (leave alone) otherwise. -/
def interpVertexUpd (fi fj : Frame) (tc : ℚ) :
    String × Vertex → Option Vertex := fun e =>
  match aget fi.vertices e.1, aget fj.vertices e.1 with
  | some p, some q =>
      some { e.2 with x := lerp p.1 q.1 tc, y := lerp p.2 q.2 tc }
  | _, _ => none

/-- The per-shape update the `INTERPOLATE_FRAMES` case performs:
`some` of the radius-interpolated circle when both frames record a
radius for it, `none` (leave alone) otherwise. -/
def interpShapeUpd (fi fj : Frame) (tc : ℚ) :
    String × Shape → Option Shape := fun e =>
  if e.2.type = .circle then
    match aget fi.shapeProperties e.1, aget fj.shapeProperties e.1 with
    | some (some rf), some (some rt) =>
        some { e.2 with radius := lerp rf rt tc }
    | _, _ => none
  else none

/-- C9: `INTERPOLATE_FRAMES(i, j, t)` clamps `t` to `[0, 1]`; every
live vertex recorded in both frames is set to the linear interpolation
of its two recorded positions (reproducing the first frame at `t = 0`
and the second at `t = 1`); every circle with a radius recorded in
both frames gets the interpolated radius; and every vertex or circle
radius absent from either frame's maps is left unmodified. -/
theorem c9_interpolate_frames (freshId : String) (now : ℤ) (s : AppState)
    (i j : ℤ) (t : ℚ) (fi fj : Frame)
    (hi : getAt? s.frames i = some fi) (hj : getAt? s.frames j = some fj)
    (hvnd : (s.vertices.map (·.1)).Nodup)
    (hsnd : (s.shapes.map (·.1)).Nodup) :
    (appReducer freshId now s (.interpolateFrames i j t) =
       appReducer freshId now s (.interpolateFrames i j (max 0 (min 1 t)))) ∧
    (∀ id v p q, aget s.vertices id = some v →
       aget fi.vertices id = some p → aget fj.vertices id = some q →
       aget (appReducer freshId now s (.interpolateFrames i j t)).vertices id =
         some { v with x := lerp p.1 q.1 (max 0 (min 1 t)),
                       y := lerp p.2 q.2 (max 0 (min 1 t)) }) ∧
    (∀ id v, aget s.vertices id = some v →
       (aget fi.vertices id = none ∨ aget fj.vertices id = none) →
       aget (appReducer freshId now s (.interpolateFrames i j t)).vertices id =
         some v) ∧
    (t = 0 → ∀ id v p q, aget s.vertices id = some v →
       aget fi.vertices id = some p → aget fj.vertices id = some q →
       aget (appReducer freshId now s (.interpolateFrames i j t)).vertices id =
         some { v with x := p.1, y := p.2 }) ∧
    (t = 1 → ∀ id v p q, aget s.vertices id = some v →
       aget fi.vertices id = some p → aget fj.vertices id = some q →
       aget (appReducer freshId now s (.interpolateFrames i j t)).vertices id =
         some { v with x := q.1, y := q.2 }) ∧
    (∀ id sh rf rt, aget s.shapes id = some sh → sh.type = .circle →
       aget fi.shapeProperties id = some (some rf) →
       aget fj.shapeProperties id = some (some rt) →
       aget (appReducer freshId now s (.interpolateFrames i j t)).shapes id =
         some { sh with radius := lerp rf rt (max 0 (min 1 t)) }) ∧
    (∀ id sh, aget s.shapes id = some sh →
       ((aget fi.shapeProperties id).bind (fun o => o) = none ∨
        (aget fj.shapeProperties id).bind (fun o => o) = none) →
       aget (appReducer freshId now s (.interpolateFrames i j t)).shapes id =
         some sh) ∧
    (∀ id sh, aget s.shapes id = some sh → sh.type ≠ .circle →
       aget (appReducer freshId now s (.interpolateFrames i j t)).shapes id =
         some sh) := by
  have h0tc : 0 ≤ max 0 (min 1 t) := le_max_left 0 _
  have h1tc : max 0 (min 1 t) ≤ 1 := max_le (by norm_num) (min_le_left 1 t)
  have hclamp : max 0 (min 1 (max 0 (min 1 t))) = max 0 (min 1 t) := by
    rw [min_eq_right h1tc, max_eq_right h0tc]
  -- the two folds, rewritten into conditional-overwrite form
  have hvfold : ∀ t' : ℚ,
      s.vertices.foldl (fun m e =>
        match aget fi.vertices e.1, aget fj.vertices e.1 with
        | some fromPos, some toPos =>
            aset m e.1 { e.2 with
              x := lerp fromPos.1 toPos.1 t',
              y := lerp fromPos.2 toPos.2 t' }
        | _, _ => m) s.vertices =
      s.vertices.foldl (updStep (interpVertexUpd fi fj t')) s.vertices := by
    intro t'
    apply List.foldl_ext
    intro m e _
    rcases h1 : aget fi.vertices e.1 with _ | p <;>
      rcases h2 : aget fj.vertices e.1 with _ | q <;>
      simp [updStep, interpVertexUpd, h1, h2]
  have hsfold : ∀ t' : ℚ,
      s.shapes.foldl (fun m e =>
        if e.2.type = .circle then
          match aget fi.shapeProperties e.1, aget fj.shapeProperties e.1 with
          | some (some fromR), some (some toR) =>
              aset m e.1 { e.2 with radius := lerp fromR toR t' }
          | _, _ => m
        else m) s.shapes =
      s.shapes.foldl (updStep (interpShapeUpd fi fj t')) s.shapes := by
    intro t'
    apply List.foldl_ext
    intro m e _
    by_cases hty : e.2.type = .circle
    · rcases h1 : aget fi.shapeProperties e.1 with _ | (_ | rf) <;>
        rcases h2 : aget fj.shapeProperties e.1 with _ | (_ | rt) <;>
        simp [updStep, interpShapeUpd, hty, h1, h2]
    · simp [updStep, interpShapeUpd, hty]
  have hred : ∀ t' : ℚ,
      appReducer freshId now s (.interpolateFrames i j t') =
        { s with
            vertices := s.vertices.foldl
              (updStep (interpVertexUpd fi fj (max 0 (min 1 t')))) s.vertices,
            shapes := s.shapes.foldl
              (updStep (interpShapeUpd fi fj (max 0 (min 1 t')))) s.shapes } := by
    intro t'
    show (match getAt? s.frames i, getAt? s.frames j with
      | some fromFrame, some toFrame => _
      | _, _ => s) = _
    rw [hi, hj]
    simp only
    rw [hvfold (max 0 (min 1 t')), hsfold (max 0 (min 1 t'))]
  have hverts : ∀ t' : ℚ,
      (appReducer freshId now s (.interpolateFrames i j t')).vertices =
        s.vertices.foldl
          (updStep (interpVertexUpd fi fj (max 0 (min 1 t')))) s.vertices := by
    intro t'
    rw [hred t']
  have hshapes : ∀ t' : ℚ,
      (appReducer freshId now s (.interpolateFrames i j t')).shapes =
        s.shapes.foldl
          (updStep (interpShapeUpd fi fj (max 0 (min 1 t')))) s.shapes := by
    intro t'
    rw [hred t']
  refine ⟨?_, ?_, ?_, ?_, ?_, ?_, ?_, ?_⟩
  · rw [hred t, hred (max 0 (min 1 t)), hclamp]
  · intro id v p q hv hp hq
    rw [hverts t,
        aget_foldl_upd s.vertices s.vertices
          (interpVertexUpd fi fj (max 0 (min 1 t))) id hvnd,
        find?_eq_of_aget hv]
    simp only [interpVertexUpd, hp, hq]
  · intro id v hv habs
    rw [hverts t,
        aget_foldl_upd s.vertices s.vertices
          (interpVertexUpd fi fj (max 0 (min 1 t))) id hvnd,
        find?_eq_of_aget hv]
    rcases habs with h | h
    · simp only [interpVertexUpd, h]
      rcases aget fj.vertices id with _ | q <;> simp [hv]
    · rcases aget fi.vertices id with _ | p <;> simp [interpVertexUpd, h, hv]
  · intro ht id v p q hv hp hq
    subst ht
    have hB : aget (appReducer freshId now s
        (.interpolateFrames i j 0)).vertices id =
        some { v with x := lerp p.1 q.1 (max 0 (min 1 0)),
                      y := lerp p.2 q.2 (max 0 (min 1 0)) } := by
      rw [hverts 0,
          aget_foldl_upd s.vertices s.vertices
            (interpVertexUpd fi fj (max 0 (min 1 0))) id hvnd,
          find?_eq_of_aget hv]
      simp only [interpVertexUpd, hp, hq]
    rw [hB]
    norm_num [lerp]
  · intro ht id v p q hv hp hq
    subst ht
    have hB : aget (appReducer freshId now s
        (.interpolateFrames i j 1)).vertices id =
        some { v with x := lerp p.1 q.1 (max 0 (min 1 1)),
                      y := lerp p.2 q.2 (max 0 (min 1 1)) } := by
      rw [hverts 1,
          aget_foldl_upd s.vertices s.vertices
            (interpVertexUpd fi fj (max 0 (min 1 1))) id hvnd,
          find?_eq_of_aget hv]
      simp only [interpVertexUpd, hp, hq]
    rw [hB]
    norm_num [lerp]
  · intro id sh rf rt hsh hty hrf hrt
    rw [hshapes t,
        aget_foldl_upd s.shapes s.shapes
          (interpShapeUpd fi fj (max 0 (min 1 t))) id hsnd,
        find?_eq_of_aget hsh]
    simp only [interpShapeUpd, hty, if_pos, hrf, hrt]
  · intro id sh hsh habs
    rw [hshapes t,
        aget_foldl_upd s.shapes s.shapes
          (interpShapeUpd fi fj (max 0 (min 1 t))) id hsnd,
        find?_eq_of_aget hsh]
    by_cases hty : sh.type = .circle
    · rcases habs with h | h
      · rcases hfi : aget fi.shapeProperties id with _ | (_ | rf) <;>
          rcases hfj : aget fj.shapeProperties id with _ | (_ | rt) <;>
          simp [interpShapeUpd, hty, hfi, hfj, hsh] <;> simp [hfi] at h
      · rcases hfi : aget fi.shapeProperties id with _ | (_ | rf) <;>
          rcases hfj : aget fj.shapeProperties id with _ | (_ | rt) <;>
          simp [interpShapeUpd, hty, hfi, hfj, hsh] <;> simp [hfj] at h
    · simp [interpShapeUpd, hty, hsh]
  · intro id sh hsh hty
    rw [hshapes t,
        aget_foldl_upd s.shapes s.shapes
          (interpShapeUpd fi fj (max 0 (min 1 t))) id hsnd,
        find?_eq_of_aget hsh]
    simp [interpShapeUpd, hty, hsh]

/-- Concrete document for the C9 witness: one vertex recorded in
both frames, one vertex in neither, one circle with radii recorded
in both frames. -/
def c9frame0 : Frame := ⟨"f0", "Frame 1", [("a", (0, 0))], [("s", some 10)], 0⟩

/-- Second frame of the C9 witness document. -/
def c9frame1 : Frame := ⟨"f1", "Frame 2", [("a", (50, 50))], [("s", some 20)], 0⟩

/-- The C9 witness document. -/
def c9doc : AppState :=
  { emptyState with
      vertices := [("a", ⟨"a", 0, 0, .anchor, none⟩),
                   ("c", ⟨"c", 3, 3, .anchor, none⟩)],
      shapes := [("s", { id := "s", type := .circle, vertexIds := ["a"],
                         style := ⟨"#000000", 2, "", 1⟩, visible := true,
                         locked := false, radius := 10 })],
      frames := [c9frame0, c9frame1] }

/-- C9 witness: interpolating halfway between the two frames of the
sample document moves the recorded vertex to `(25, 25)`, leaves the
unrecorded vertex at `(3, 3)`, and sets the circle radius to `15`. -/
theorem c9_interpolate_frames_witness :
    aget (appReducer "" 0 c9doc (.interpolateFrames 0 1 (1 / 2))).vertices "a" =
      some ⟨"a", 25, 25, .anchor, none⟩ ∧
    aget (appReducer "" 0 c9doc (.interpolateFrames 0 1 (1 / 2))).vertices "c" =
      some ⟨"c", 3, 3, .anchor, none⟩ ∧
    aget (appReducer "" 0 c9doc (.interpolateFrames 0 1 (1 / 2))).shapes "s" =
      some { id := "s", type := .circle, vertexIds := ["a"],
             style := ⟨"#000000", 2, "", 1⟩, visible := true,
             locked := false, radius := 15 } := by
  have h := c9_interpolate_frames "" 0 c9doc 0 1 (1 / 2) c9frame0 c9frame1
    (by decide) (by decide) (by decide) (by decide)
  refine ⟨?_, ?_, ?_⟩
  · have hb := h.2.1 "a" ⟨"a", 0, 0, .anchor, none⟩ (0, 0) (50, 50)
      (by decide) (by decide) (by decide)
    norm_num [lerp, min_def, max_def] at hb
    exact hb
  · exact h.2.2.1 "c" ⟨"c", 3, 3, .anchor, none⟩ (by decide)
      (Or.inl (by decide))
  · have hf := h.2.2.2.2.2.1 "s"
      { id := "s", type := .circle, vertexIds := ["a"],
        style := ⟨"#000000", 2, "", 1⟩, visible := true,
        locked := false, radius := 10 } 10 20
      (by decide) rfl (by decide) (by decide)
    norm_num [lerp, min_def, max_def] at hf
    exact hf

/-- C3: `MERGE_VERTICES` with fewer than 2 ids returns the state
unchanged; with 2 or more ids (and a fresh generated id) it creates
one new anchor vertex at the target position, deletes every merged
vertex, leaves all other vertices alone, rewrites every shape's
vertex references — including the bezier segment fields `p0..p3` —
from any merged id to the new id, and sets the vertex selection to
exactly the new id. -/
theorem c3_merge_vertices (freshId : String) (now : ℤ) (s : AppState)
    (ids : List String) (pos : ℚ × ℚ) :
    (ids.length < 2 →
      appReducer freshId now s (.mergeVertices ids pos) = s) ∧
    (2 ≤ ids.length → freshId ∉ ids →
      aget (appReducer freshId now s (.mergeVertices ids pos)).vertices
          freshId = some ⟨freshId, pos.1, pos.2, .anchor, none⟩ ∧
      (∀ id ∈ ids,
        aget (appReducer freshId now s (.mergeVertices ids pos)).vertices
          id = none) ∧
      (∀ id, id ∉ ids → id ≠ freshId →
        aget (appReducer freshId now s (.mergeVertices ids pos)).vertices
          id = aget s.vertices id) ∧
      (∀ k sh, aget s.shapes k = some sh → sh.type ≠ .bezier →
        aget (appReducer freshId now s (.mergeVertices ids pos)).shapes k =
          some { sh with vertexIds := sh.vertexIds.map (fun v =>
            if ids.contains v then freshId else v) }) ∧
      (∀ k sh, aget s.shapes k = some sh → sh.type = .bezier →
        sh.vertexIds =
          sh.segments.flatMap (fun sg => [sg.p0, sg.p1, sg.p2, sg.p3]) →
        aget (appReducer freshId now s (.mergeVertices ids pos)).shapes k =
          some { sh with
            vertexIds := sh.vertexIds.map (fun v =>
              if ids.contains v then freshId else v),
            segments := sh.segments.map (fun sg =>
              ⟨if ids.contains sg.p0 then freshId else sg.p0,
               if ids.contains sg.p1 then freshId else sg.p1,
               if ids.contains sg.p2 then freshId else sg.p2,
               if ids.contains sg.p3 then freshId else sg.p3⟩) }) ∧
      (appReducer freshId now s (.mergeVertices ids pos)).selectedVertexIds =
        [freshId]) := by
  constructor
  · intro hlt
    show (if ids.length < 2 then s else _) = s
    rw [if_pos hlt]
  intro hge hfresh
  have hlt : ¬ ids.length < 2 := by omega
  have hred : appReducer freshId now s (.mergeVertices ids pos) =
      { s with
          vertices := ids.foldl adel
            (aset s.vertices freshId ⟨freshId, pos.1, pos.2, .anchor, none⟩),
          shapes := s.shapes.map (fun e =>
            (e.1, mergeRewriteShape ids freshId e.2)),
          selectedVertexIds := [freshId],
          history := saveHistory s } := by
    show (if ids.length < 2 then s else _) = _
    rw [if_neg hlt]
  refine ⟨?_, ?_, ?_, ?_, ?_, ?_⟩
  · rw [hred]
    show aget (ids.foldl adel _) freshId = _
    rw [foldl_adel_eq_filter, aget_filter_key _ (fun key => !ids.contains key)]
    simp [hfresh, aget_aset]
  · intro id hid
    rw [hred]
    show aget (ids.foldl adel _) id = _
    rw [foldl_adel_eq_filter, aget_filter_key _ (fun key => !ids.contains key)]
    simp [hid]
  · intro id hid hidf
    rw [hred]
    show aget (ids.foldl adel _) id = _
    rw [foldl_adel_eq_filter, aget_filter_key _ (fun key => !ids.contains key)]
    simp [hid, aget_aset, Ne.symm hidf]
  · intro k sh hsh hty
    rw [hred]
    show aget (s.shapes.map _) k = _
    rw [aget_map, hsh]
    simp only [Option.map_some']
    congr 1
    rw [mergeRewriteShape, if_neg hty]
    by_cases hch : sh.vertexIds.map (fun vId =>
        if ids.contains vId then freshId else vId) = sh.vertexIds
    · rw [if_neg (by simpa using hch)]
      cases sh
      simp only at hch ⊢
      rw [hch]
    · rw [if_pos (by simpa using hch)]
  · intro k sh hsh hty hwf
    rw [hred]
    show aget (s.shapes.map _) k = _
    rw [aget_map, hsh]
    simp only [Option.map_some']
    congr 1
    rw [mergeRewriteShape, if_pos hty]
    simp only
    have hflat : sh.vertexIds.map (fun v =>
        if ids.contains v then freshId else v) =
        (sh.segments.map (fun sg =>
          (⟨if ids.contains sg.p0 then freshId else sg.p0,
            if ids.contains sg.p1 then freshId else sg.p1,
            if ids.contains sg.p2 then freshId else sg.p2,
            if ids.contains sg.p3 then freshId else sg.p3⟩ :
              BezierSegment))).flatMap
          (fun sg => [sg.p0, sg.p1, sg.p2, sg.p3]) := by
      rw [hwf, List.map_flatMap, List.flatMap_map]
      apply List.flatMap_congr
      intro sg _
      rfl
    by_cases hupd : sh.segments.any (fun seg =>
        ids.contains seg.p0 || ids.contains seg.p1 ||
        ids.contains seg.p2 || ids.contains seg.p3)
    · rw [if_pos hupd]
      cases sh
      simp only at hflat ⊢
      rw [hflat]
    · rw [if_neg hupd]
      have hupd' : ∀ sg ∈ sh.segments,
          sg.p0 ∉ ids ∧ sg.p1 ∉ ids ∧ sg.p2 ∉ ids ∧ sg.p3 ∉ ids := by
        have hupd2 := hupd
        simp at hupd2
        intro sg hsg
        have h := hupd2 sg hsg
        tauto
      have hsegs : sh.segments.map (fun sg =>
          (⟨if ids.contains sg.p0 then freshId else sg.p0,
            if ids.contains sg.p1 then freshId else sg.p1,
            if ids.contains sg.p2 then freshId else sg.p2,
            if ids.contains sg.p3 then freshId else sg.p3⟩ : BezierSegment)) =
          sh.segments := by
        have hcongr := List.map_congr_left (l := sh.segments)
          (f := fun sg => (⟨if ids.contains sg.p0 then freshId else sg.p0,
            if ids.contains sg.p1 then freshId else sg.p1,
            if ids.contains sg.p2 then freshId else sg.p2,
            if ids.contains sg.p3 then freshId else sg.p3⟩ : BezierSegment))
          (g := fun sg => sg)
          (fun sg hsg => by
            obtain ⟨h0, h1, h2, h3⟩ := hupd' sg hsg
            simp [h0, h1, h2, h3])
        simpa using hcongr
      have hvids : sh.vertexIds.map (fun v =>
          if ids.contains v then freshId else v) = sh.vertexIds := by
        have hcongr := List.map_congr_left (l := sh.vertexIds)
          (f := fun v => if ids.contains v then freshId else v)
          (g := fun v => v)
          (fun v hv => by
            rw [hwf] at hv
            obtain ⟨sg, hsg, hmem⟩ := List.mem_flatMap.mp hv
            obtain ⟨h0, h1, h2, h3⟩ := hupd' sg hsg
            simp only [List.mem_cons, List.not_mem_nil, or_false] at hmem
            rcases hmem with rfl | rfl | rfl | rfl
            · simp [h0]
            · simp [h1]
            · simp [h2]
            · simp [h3])
        simpa using hcongr
      cases sh
      simp only at hsegs hvids ⊢
      rw [hsegs, hvids]
  · rw [hred]

/-- The C3 witness document: two anchors joined by a line and by a
one-segment bezier (with two control vertices). -/
def c3doc : AppState :=
  { emptyState with
      vertices := [("a", ⟨"a", 0, 0, .anchor, none⟩),
                   ("b", ⟨"b", 10, 0, .anchor, none⟩),
                   ("c1", ⟨"c1", 3, 0, .control, some "a"⟩),
                   ("c2", ⟨"c2", 6, 0, .control, some "b"⟩)],
      shapes := [("L", { id := "L", type := .line, vertexIds := ["a", "b"],
                         style := ⟨"#000000", 2, "", 1⟩, visible := true,
                         locked := false }),
                 ("B", { id := "B", type := .bezier,
                         vertexIds := ["a", "c1", "c2", "b"],
                         style := ⟨"#000000", 2, "", 1⟩, visible := true,
                         locked := false,
                         segments := [⟨"a", "c1", "c2", "b"⟩] })] }

/-- C3 witness: merging `a` and `b` at `(5, 5)` with fresh id `m`
creates the anchor `m`, deletes `a` and `b`, rewrites the line to
the degenerate `[m, m]`, rewrites the bezier segment end anchors to
`m`, and selects exactly `m`. -/
theorem c3_merge_vertices_witness :
    aget (appReducer "m" 0 c3doc (.mergeVertices ["a", "b"] (5, 5))).vertices
        "m" = some ⟨"m", 5, 5, .anchor, none⟩ ∧
    aget (appReducer "m" 0 c3doc (.mergeVertices ["a", "b"] (5, 5))).vertices
        "a" = none ∧
    aget (appReducer "m" 0 c3doc (.mergeVertices ["a", "b"] (5, 5))).shapes
        "L" = some { id := "L", type := .line, vertexIds := ["m", "m"],
                     style := ⟨"#000000", 2, "", 1⟩, visible := true,
                     locked := false } ∧
    aget (appReducer "m" 0 c3doc (.mergeVertices ["a", "b"] (5, 5))).shapes
        "B" = some { id := "B", type := .bezier,
                     vertexIds := ["m", "c1", "c2", "m"],
                     style := ⟨"#000000", 2, "", 1⟩, visible := true,
                     locked := false,
                     segments := [⟨"m", "c1", "c2", "m"⟩] } ∧
    (appReducer "m" 0 c3doc (.mergeVertices ["a", "b"] (5, 5))).selectedVertexIds
      = ["m"] := by
  have h := (c3_merge_vertices "m" 0 c3doc ["a", "b"] (5, 5)).2
    (by decide) (by decide)
  refine ⟨h.1, h.2.1 "a" (by decide), ?_, ?_, h.2.2.2.2.2⟩
  · have hL := h.2.2.2.1 "L"
      { id := "L", type := .line, vertexIds := ["a", "b"],
        style := ⟨"#000000", 2, "", 1⟩, visible := true, locked := false }
      (by decide) (by decide)
    rw [hL]
    decide
  · have hB := h.2.2.2.2.1 "B"
      { id := "B", type := .bezier, vertexIds := ["a", "c1", "c2", "b"],
        style := ⟨"#000000", 2, "", 1⟩, visible := true, locked := false,
        segments := [⟨"a", "c1", "c2", "b"⟩] }
      (by decide) (by decide) (by decide)
    rw [hB]
    decide

/-- C10 witness: a document with exactly one frame and current frame
index `0`; deleting frame `0` yields current frame index `-1`. -/
theorem c10_delete_frame_clamps_index_witness :
    (0 : ℤ) ≤ 0 ∧
    ((appReducer "" 0
        { emptyState with
            frames := [⟨"f1", "Frame 1", [], [], 0⟩],
            currentFrameIndex := 0 }
        (.deleteFrame 0)).currentFrameIndex = -1 ∧
      (appReducer "" 0
        { emptyState with
            frames := [⟨"f1", "Frame 1", [], [], 0⟩],
            currentFrameIndex := 0 }
        (.deleteFrame 0)).currentFrameIndex < 0) := by
  refine ⟨le_refl 0, ?_⟩
  exact (c10_delete_frame_clamps_index "" 0
    { emptyState with
        frames := [⟨"f1", "Frame 1", [], [], 0⟩],
        currentFrameIndex := 0 }
    0 (by norm_num) (by norm_num)).2 (by simp) (by norm_num)

section RoundTrip

/-- JS `Math.round` moves its argument by at most one half. -/
theorem abs_jsRound_sub_le (q : ℚ) : |(jsRound q : ℚ) - q| ≤ 1 / 2 := by
  have h1 : ((⌊q + 1 / 2⌋ : ℤ) : ℚ) ≤ q + 1 / 2 := Int.floor_le _
  have h2 : q + 1 / 2 < (⌊q + 1 / 2⌋ : ℤ) + 1 := Int.lt_floor_add_one _
  rw [jsRound, abs_le]
  constructor <;> linarith

/-- Rounding to two decimals moves a rational by at most `1/200`. -/
theorem abs_round2_sub_le (q : ℚ) : |round2 q - q| ≤ 1 / 200 := by
  have h := abs_jsRound_sub_le (q * 100)
  rw [abs_le] at h ⊢
  rw [round2]
  constructor <;> linarith

/-- Round trip through grid units: dividing by `g`, rounding to two
decimals and multiplying back moves a coordinate by at most `g/100`
(half of that, in fact). -/
theorem round_trip_pos_tol (q g : ℚ) (hg : 0 < g) :
    |round2 (q / g) * g - q| ≤ g / 100 := by
  have hg' : g ≠ 0 := ne_of_gt hg
  have he : round2 (q / g) * g - q = (round2 (q / g) - q / g) * g := by
    rw [sub_mul, div_mul_cancel₀ q hg']
  rw [he, abs_mul, abs_of_pos hg]
  have h2 := mul_le_mul_of_nonneg_right (abs_round2_sub_le (q / g))
    (le_of_lt hg)
  linarith

/-- The serialized vertex type tag parses back to itself. -/
theorem parseVertexType_vertexTypeString (t : VertexType) :
    parseVertexType (vertexTypeString t) = t := by
  cases t <;> rfl

/-- Re-importing the exported record of a shape whose style has a
nonempty color and a nonzero stroke width succeeds and yields
`importedShapeOf`. -/
theorem parseShapeRaw_export (g : ℚ) (sh : Shape)
    (hcolor : sh.style.color ≠ "") (hsw : sh.style.strokeWidth ≠ 0) :
    parseShapeRaw true g (exportRawShape g sh) =
      some (importedShapeOf g sh) := by
  cases h : sh.type <;>
    simp +decide [parseShapeRaw, exportRawShape, importedShapeOf,
      shapeTypeString, parseShapeType, h, hcolor, hsw]

/-- A singleton reference list is reproduced by truncation to its
head. -/
theorem headD_singleton_of_length_one (l : List String)
    (hl : l.length = 1) : [l.headD ""] = l := by
  cases l with
  | nil => simp at hl
  | cons a t =>
      cases t with
      | nil => rfl
      | cons b t2 => simp [List.length_cons] at hl

/-- Congruence for `foldl` under pointwise agreement on the list's
members. -/
theorem foldl_congr_mem {α β : Type} (l : List β) (f f' : α → β → α)
    (h : ∀ x ∈ l, ∀ m, f m x = f' m x) (a : α) :
    l.foldl f a = l.foldl f' a := by
  induction l generalizing a with
  | nil => rfl
  | cons x t ih =>
      rw [List.foldl_cons, List.foldl_cons, h x (List.mem_cons_self x t)]
      exact ih (fun y hy m => h y (List.mem_cons_of_mem x hy) m) _

end RoundTrip

/-- A document whose single vertex sits at `(1000, 1000)`. -/
def c1doc : AppState :=
  { emptyState with vertices := [("a", ⟨"a", 1000, 1000, .anchor, none⟩)] }

/-- C1 counterexample: exporting `c1doc` at grid size `1` translates
the vertex to the bounding-box origin, and the importer never adds
the origin back — the round trip lands the vertex at `(0, 0)`,
`1000` pixels away from its original position, far outside the
claimed two-decimal rounding tolerance. -/
theorem c1_counterexample :
    aget (parseImportData (exportToJSON c1doc 1) 1).vertices "a" =
      some ⟨"a", 0, 0, .anchor, none⟩ ∧
    ∀ v' : Vertex,
      aget (parseImportData (exportToJSON c1doc 1) 1).vertices "a" =
        some v' →
      ¬ |v'.x - 1000| ≤ 1 / 100 := by
  have hflag : importUsesGrid (exportToJSON c1doc 1) = true := rfl
  have higs : importGridSizeOf (exportToJSON c1doc 1) 1 = 1 := by
    show (if (1 : ℚ) = 0 then 1 else 1) = 1
    norm_num
  have horig : exportOrigin c1doc = (1000, 1000) := rfl
  have hnd : (((exportToJSON c1doc 1).vertices.getD []).map
      (fun v => v.id)).Nodup := by
    show (["a"] : List String).Nodup
    decide
  have hmem : exportRawVertex (exportOrigin c1doc) 1
      (⟨"a", 1000, 1000, .anchor, none⟩ : Vertex) ∈
      (exportToJSON c1doc 1).vertices.getD [] := by
    show _ ∈ [exportRawVertex (exportOrigin c1doc) 1
      (⟨"a", 1000, 1000, .anchor, none⟩ : Vertex)]
    exact List.mem_singleton_self _
  have hlook := parse_vertices_lookup (exportToJSON c1doc 1) 1 hnd _ hmem
  rw [hflag, higs] at hlook
  have hfin : aget (parseImportData (exportToJSON c1doc 1) 1).vertices
      "a" =
      some { id := "a",
             x := round2 ((1000 - (exportOrigin c1doc).1) / 1) * 1,
             y := round2 ((1000 - (exportOrigin c1doc).2) / 1) * 1,
             type := VertexType.anchor,
             parentId := none } := hlook
  have hx : round2 ((1000 - (exportOrigin c1doc).1) / 1) * 1 = 0 := by
    rw [horig]
    norm_num [round2, jsRound]
  have hy : round2 ((1000 - (exportOrigin c1doc).2) / 1) * 1 = 0 := by
    rw [horig]
    norm_num [round2, jsRound]
  rw [hx, hy] at hfin
  refine ⟨hfin, ?_⟩
  intro v' hv
  rw [hfin] at hv
  injection hv with hv'
  subst hv'
  norm_num

/-- C1 (amended): exporting and re-importing with the same positive
grid size reproduces every vertex position translated by the export
bounding-box origin, within the two-decimal grid-unit rounding
tolerance `g / 100`, and preserves vertex types and parents; every
shape comes back stored under its id with its references, segments,
closure flag, style, visibility and lock state exactly preserved.
Hypotheses: the document has a vertex, map keys match ids and are
duplicate-free, a circle holds exactly one reference, a non-bezier
shape holds no segments, only bezier/polygon shapes may be closed,
and styles are non-falsy (nonempty color, nonzero stroke width).
The claim's unqualified "reproduces the positions" fails because
the importer never adds the subtracted origin back
(see the separate counterexample at `(1000, 1000)`). -/
theorem c1_round_trip (s : AppState) (g : ℚ) (hg : 0 < g)
    (hvne : s.vertices ≠ [])
    (hvk : ∀ e ∈ s.vertices, e.1 = e.2.id)
    (hvnd : (s.vertices.map (fun e => e.1)).Nodup)
    (hsk : ∀ e ∈ s.shapes, e.1 = e.2.id)
    (hsnd : (s.shapes.map (fun e => e.1)).Nodup)
    (hwf : ∀ e ∈ s.shapes,
      (e.2.type = .circle → e.2.vertexIds.length = 1) ∧
      (e.2.type ≠ .bezier → e.2.segments = []) ∧
      (e.2.type ≠ .bezier → e.2.type ≠ .polygon → e.2.closed = false))
    (hstyle : ∀ e ∈ s.shapes,
      e.2.style.color ≠ "" ∧ e.2.style.strokeWidth ≠ 0) :
    (∀ e ∈ s.vertices, ∃ v' : Vertex,
      aget (parseImportData (exportToJSON s g) g).vertices e.2.id =
        some v' ∧
      v'.type = e.2.type ∧ v'.parentId = e.2.parentId ∧
      |v'.x - (e.2.x - (exportOrigin s).1)| ≤ g / 100 ∧
      |v'.y - (e.2.y - (exportOrigin s).2)| ≤ g / 100) ∧
    (∀ e ∈ s.shapes,
      aget (parseImportData (exportToJSON s g) g).shapes e.2.id =
        some (importedShapeOf g e.2) ∧
      (importedShapeOf g e.2).vertexIds = e.2.vertexIds ∧
      (importedShapeOf g e.2).segments = e.2.segments ∧
      (importedShapeOf g e.2).closed = e.2.closed ∧
      (importedShapeOf g e.2).style = e.2.style ∧
      (importedShapeOf g e.2).type = e.2.type ∧
      (importedShapeOf g e.2).visible = e.2.visible ∧
      (importedShapeOf g e.2).locked = e.2.locked) := by
  have hflag : importUsesGrid (exportToJSON s g) = true := rfl
  have higs : importGridSizeOf (exportToJSON s g) g = g := by
    show (if g = 0 then g else g) = g
    exact ite_self g
  constructor
  · have hvraw : (exportToJSON s g).vertices.getD [] =
        s.vertices.map (fun e => exportRawVertex (exportOrigin s) g e.2) :=
      rfl
    have hnd' : (((exportToJSON s g).vertices.getD []).map
        (fun v => v.id)).Nodup := by
      rw [hvraw, List.map_map]
      have hcongr : s.vertices.map
          ((fun v : RawVertex => v.id) ∘
            fun e => exportRawVertex (exportOrigin s) g e.2) =
          s.vertices.map (fun e => e.1) := by
        apply List.map_congr_left
        intro e he
        exact (hvk e he).symm
      rw [hcongr]
      exact hvnd
    intro e he
    have hvmem : exportRawVertex (exportOrigin s) g e.2 ∈
        (exportToJSON s g).vertices.getD [] := by
      rw [hvraw]
      exact List.mem_map_of_mem _ he
    have hlook := parse_vertices_lookup (exportToJSON s g) g hnd' _ hvmem
    rw [hflag, higs] at hlook
    have hfin : aget (parseImportData (exportToJSON s g) g).vertices
        e.2.id =
        some { id := e.2.id,
               x := round2 ((e.2.x - (exportOrigin s).1) / g) * g,
               y := round2 ((e.2.y - (exportOrigin s).2) / g) * g,
               type := parseVertexType (vertexTypeString e.2.type),
               parentId := e.2.parentId } := hlook
    refine ⟨_, hfin, ?_, rfl, ?_, ?_⟩
    · exact parseVertexType_vertexTypeString e.2.type
    · exact round_trip_pos_tol (e.2.x - (exportOrigin s).1) g hg
    · exact round_trip_pos_tol (e.2.y - (exportOrigin s).2) g hg
  · have hsfold : (parseImportData (exportToJSON s g) g).shapes =
        s.shapes.foldl (fun m e =>
          aset m (importedShapeOf g e.2).id (importedShapeOf g e.2)) [] := by
      have h0 : (parseImportData (exportToJSON s g) g).shapes =
          (s.shapes.map (fun e => exportRawShape g e.2)).foldl
            (shapeStep (importUsesGrid (exportToJSON s g))
              (importGridSizeOf (exportToJSON s g) g)) [] := rfl
      rw [h0, hflag, higs, List.foldl_map]
      apply foldl_congr_mem
      intro e he m
      have hp := parseShapeRaw_export g e.2 (hstyle e he).1 (hstyle e he).2
      simp [shapeStep, hp]
    intro e he
    have hkey : ∀ x ∈ s.shapes, (importedShapeOf g x.2).id = x.1 := by
      intro x hx
      exact (hsk x hx).symm
    have hnd2 : (s.shapes.map
        (fun x => (importedShapeOf g x.2).id)).Nodup := by
      have hm : s.shapes.map (fun x => (importedShapeOf g x.2).id) =
          s.shapes.map (fun x => x.1) := List.map_congr_left hkey
      rw [hm]
      exact hsnd
    have hget := aget_foldl_keyed (α := Shape) s.shapes
      (fun x => (importedShapeOf g x.2).id)
      (fun x => importedShapeOf g x.2) hnd2 e he
    refine ⟨?_, ?_, ?_, ?_, rfl, rfl, rfl, rfl⟩
    · rw [hsfold]
      have h2 : (importedShapeOf g e.2).id = e.2.id := rfl
      rw [← h2]
      exact hget
    · by_cases hc : e.2.type = .circle
      · have h1 := (hwf e he).1 hc
        simp only [importedShapeOf, if_pos hc]
        exact headD_singleton_of_length_one _ h1
      · simp only [importedShapeOf, if_neg hc]
    · by_cases hb : e.2.type = .bezier
      · simp only [importedShapeOf, if_pos hb]
      · simp only [importedShapeOf, if_neg hb]
        exact ((hwf e he).2.1 hb).symm
    · by_cases hb : e.2.type = .bezier
      · simp only [importedShapeOf, if_pos hb]
      · by_cases hq : e.2.type = .polygon
        · simp only [importedShapeOf, if_neg hb, if_pos hq]
        · simp only [importedShapeOf, if_neg hb, if_neg hq]
          exact ((hwf e he).2.2 hb hq).symm

/-- A small well-formed document: one vertex at `(3, 4)` and one line
referencing it twice. -/
def c1wit : AppState :=
  { emptyState with
      vertices := [("a", ⟨"a", 3, 4, .anchor, none⟩)],
      shapes := [("s1", { id := "s1", type := .line,
                          vertexIds := ["a", "a"],
                          style := ⟨"#fff", 2, "", 1⟩,
                          visible := true, locked := false })] }

/-- C1 witness: the round-trip law applied to `c1wit` at grid size
`2`, instantiated at its vertex. -/
theorem c1_round_trip_witness :
    ∃ v' : Vertex,
      aget (parseImportData (exportToJSON c1wit 2) 2).vertices "a" =
        some v' ∧
      v'.type = VertexType.anchor ∧ v'.parentId = none ∧
      |v'.x - (3 - (exportOrigin c1wit).1)| ≤ 2 / 100 ∧
      |v'.y - (4 - (exportOrigin c1wit).2)| ≤ 2 / 100 :=
  (c1_round_trip c1wit 2 (by norm_num) (by decide) (by decide) (by decide)
      (by decide) (by decide) (by decide) (by decide)).1
    ("a", ⟨"a", 3, 4, .anchor, none⟩) (by decide)

end MeshMaker
